import Mathlib

/-!
# Verification of the reviewer-finder pipeline

A shallow embedding of the candidate retrieval, ranking, enrichment,
contact-resolution and conflict-of-interest services of the
reviewer-finder repository (`src/services/*.py`, `src/app.py`), together
with proofs and refutations of the specified behavioural properties.

Modelling conventions:

* Python numeric computation (floats) is modelled exactly over `ℚ`.
  Because `Rat.add`, `Rat.mul`, … are `@[irreducible]` in this toolchain
  (which blocks kernel evaluation in `decide`), the embedding uses the
  kernel-computable equivalents `qAdd`, `qMul`, `qSub`, `qDiv`, `qMin`,
  `qMax`, `round1` below; the lemmas `qAdd_eq` … prove that they agree
  with the ordinary field operations on `ℚ`, and all order-theoretic
  reasoning happens on the ordinary operations after rewriting.
  Decimal literals such as `0.35` are written `Rat.divInt 35 100`.
* Python strings are modelled by `String`, with Python-semantics helpers
  (`pyLower`, `pyTrim`, `pySplit`, `pyIn`, …) implemented by structural
  recursion over `String.data` so that they evaluate in the kernel.
  `\w` in Python regexes (Unicode-aware) is approximated by
  `isWordChar`: ASCII alphanumerics, underscore, and all non-ASCII
  characters; the corpus-facing token filter `[a-z]{3,}` is exact.
* Python `round(x, 1)` (round half to even at one decimal) is modelled
  exactly on `ℚ` by `round1`; the binary floating-point representation
  error of CPython is not modelled, and no claim depends on exact tie
  behaviour.
* Network and file-system effects (Qdrant, OpenAlex, ORCID, the local
  `authors.json` snapshot, the embedding model) are oracle parameters:
  the functions that wrap them are passed as arguments.
-/

set_option maxRecDepth 40000

set_option maxHeartbeats 1600000

namespace ReviewerFinder

/-! ## Python-semantics string helpers -/

/-- Lower-case a single character, ASCII only (Python `str.lower` on the
ASCII fragment used by the code's string data). -/
def lowerChar (c : Char) : Char :=
  if 'A' ≤ c ∧ c ≤ 'Z' then Char.ofNat (c.toNat + 32) else c

/-- Python `s.lower()` (ASCII fragment). -/
def pyLower (s : String) : String := String.mk (s.data.map lowerChar)

/-- Python `s.strip()`: drop leading and trailing whitespace. -/
def pyTrim (s : String) : String :=
  String.mk (((s.data.dropWhile Char.isWhitespace).reverse.dropWhile
    Char.isWhitespace).reverse)

/-- Worker for `pySplit`: split a character list on whitespace runs. -/
def splitWsAux : List Char → List Char → List String
  | [], acc => if acc.isEmpty then [] else [String.mk acc.reverse]
  | c :: cs, acc =>
    if c.isWhitespace then
      if acc.isEmpty then splitWsAux cs []
      else String.mk acc.reverse :: splitWsAux cs []
    else splitWsAux cs (c :: acc)

/-- Python `s.split()` with no argument: split on whitespace runs,
discarding empty pieces. -/
def pySplit (s : String) : List String := splitWsAux s.data []

/-- Python `needle in hay` on strings (substring containment; the empty
needle is contained in everything). -/
def pyIn (needle hay : String) : Bool :=
  go hay.data
where
  go : List Char → Bool
    | [] => needle.data.isPrefixOf ([] : List Char)
    | c :: cs => needle.data.isPrefixOf (c :: cs) || go cs

/-- Worker for `pyReplace`, fuelled by the length of the subject so that
the recursion is structural (and hence kernel-computable). -/
def replaceAux (needle repl : List Char) : ℕ → List Char → List Char
  | 0, s => s
  | _ + 1, [] => []
  | fuel + 1, c :: cs =>
    if needle ≠ [] ∧ needle.isPrefixOf (c :: cs) then
      repl ++ replaceAux needle repl fuel (List.drop needle.length (c :: cs))
    else c :: replaceAux needle repl fuel cs

/-- Python `s.replace(needle, repl)` (all occurrences, left to right). -/
def pyReplace (s needle repl : String) : String :=
  String.mk (replaceAux needle.data repl.data s.data.length s.data)

/-- Python `\w`: word characters.  ASCII alphanumerics and underscore;
non-ASCII characters are (over-)approximated as word characters, which
matches Unicode letters and digits. -/
def isWordChar (c : Char) : Bool := c.isAlphanum || c = '_' || decide (127 < c.toNat)

/-- Worker for `wordRuns`: maximal runs of word characters. -/
def wordRunsAux : List Char → List Char → List String
  | [], acc => if acc.isEmpty then [] else [String.mk acc.reverse]
  | c :: cs, acc =>
    if isWordChar c then wordRunsAux cs (c :: acc)
    else if acc.isEmpty then wordRunsAux cs []
    else String.mk acc.reverse :: wordRunsAux cs []

/-- The maximal word-character runs of a string. -/
def wordRuns (s : String) : List String := wordRunsAux s.data []

/-- Python `re.findall(r'\b[a-z]{3,}\b', s)`: the maximal word-character
runs that consist purely of `a`–`z` and have length at least 3. -/
def pyTokens (s : String) : List String :=
  (wordRuns s).filter (fun w => 3 ≤ w.length && w.data.all Char.isLower)

/-- Python `str.capitalize()`: first character upper-cased, the rest
lower-cased (ASCII fragment). -/
def pyCapitalize (s : String) : String :=
  match s.data with
  | [] => ""
  | c :: cs => String.mk (c.toUpper :: cs.map lowerChar)

/-- Lexicographic order on character lists by code point (Python string
comparison). -/
def charsLe : List Char → List Char → Bool
  | [], _ => true
  | _ :: _, [] => false
  | a :: as, b :: bs => if a = b then charsLe as bs else decide (a.toNat < b.toNat)

/-- Python `a >= b` on strings. -/
def pyStrGe (a b : String) : Bool := charsLe b.data a.data

/-- Numeric value of a digit run (`none` if empty or non-digit). -/
def digitsVal : List Char → Option ℕ
  | [] => none
  | ds =>
    if ds.all Char.isDigit then
      some (ds.foldl (fun acc c => acc * 10 + (c.toNat - '0'.toNat)) 0)
    else none

/-- Python `int(s)`: strip whitespace, optional sign, digit run.
(Underscore digit separators accepted by CPython are not modelled; no
string in the modelled data paths contains them.) -/
def pyParseInt (s : String) : Option ℤ :=
  match (pyTrim s).data with
  | '+' :: ds => (digitsVal ds).map (fun n => (n : ℤ))
  | '-' :: ds => (digitsVal ds).map (fun n => -(n : ℤ))
  | ds => (digitsVal ds).map (fun n => (n : ℤ))

/-- Python `s[:n]` for a nonnegative count on strings. -/
def pyStrTake (s : String) (n : ℕ) : String := String.mk (s.data.take n)

/-- `sum(ord(c) for c in s)` — the name hash used by the contact
service. -/
def nameHash (s : String) : ℕ := (s.data.map Char.toNat).sum

/-! ## Kernel-computable rational arithmetic

`Rat.add` and friends are `@[irreducible]`, so the embedding computes
with `Rat.divInt`-based equivalents and rewrites to the ordinary field
operations (via the `_eq` lemmas) for order-theoretic proofs. -/

/-- Kernel-computable addition on `ℚ`. -/
def qAdd (a b : ℚ) : ℚ :=
  Rat.divInt (a.num * (b.den : ℤ) + b.num * (a.den : ℤ)) ((a.den : ℤ) * (b.den : ℤ))

/-- Kernel-computable multiplication on `ℚ`. -/
def qMul (a b : ℚ) : ℚ := Rat.divInt (a.num * b.num) ((a.den : ℤ) * (b.den : ℤ))

/-- Kernel-computable negation on `ℚ`. -/
def qNeg (a : ℚ) : ℚ := Rat.divInt (-a.num) (a.den : ℤ)

/-- Kernel-computable subtraction on `ℚ`. -/
def qSub (a b : ℚ) : ℚ := qAdd a (qNeg b)

/-- Kernel-computable inversion on `ℚ`. -/
def qInv (a : ℚ) : ℚ := Rat.divInt (a.den : ℤ) a.num

/-- Kernel-computable division on `ℚ`. -/
def qDiv (a b : ℚ) : ℚ := qMul a (qInv b)

/-- Python `min` on two rationals. -/
def qMin (a b : ℚ) : ℚ := if a ≤ b then a else b

/-- Python `max` on two rationals. -/
def qMax (a b : ℚ) : ℚ := if a ≤ b then b else a

/-- Round half to even to the nearest integer (the rounding mode of
Python's `round`). -/
def roundHalfEven (x : ℚ) : ℤ :=
  let f := Rat.floor x
  let r := qSub x (Rat.divInt f 1)
  if r < Rat.divInt 1 2 then f
  else if Rat.divInt 1 2 < r then f + 1
  else if f % 2 = 0 then f else f + 1

/-- Python `round(x, 1)` on exact rationals. -/
def round1 (x : ℚ) : ℚ := Rat.divInt (roundHalfEven (qMul x 10)) 10

/-! ## Data model

Candidates are the Python dicts that flow through the pipeline: the
payload fields of the vector index plus the fields the pipeline adds
(scores, reasoning, contact, COI flags, rank).  An absent dict key is
modelled by the field's default (`none`, `""`, `[]`, `0`).
`affiliations` keeps only the `institution` entry of each affiliation
dict — the only field the modelled code reads. -/

/-- The contact dict built by the contact service.  Optional fields are
dict keys that may be absent; `some ""` models a present-but-falsy
value. -/
structure Contact where
  email : Option String := none
  email_is_inferred : Option Bool := none
  orcid : Option String := none
  orcid_url : Option String := none
  homepage : Option String := none
  google_scholar : Option String := none
  institution_page : Option String := none
  openalex_url : Option String := none
  institution : Option String := none
deriving DecidableEq, Inhabited

/-- A conflict-of-interest flag (`coi_service.detect_conflicts`). -/
structure COIFlag where
  type : String
  detail : String
  severity : String
deriving DecidableEq, Inhabited

/-- A candidate dict flowing through the pipeline. -/
structure Candidate where
  author_id : String := ""
  name : String := ""
  orcid : String := ""
  institution : String := ""
  country : String := ""
  topics : List String := []
  research_summary : String := ""
  h_index : ℤ := 0
  citation_count : ℤ := 0
  works_count : ℤ := 0
  last_publication_date : String := ""
  score : ℚ := 0
  topic_score : ℚ := 0
  methodology_score : ℚ := 0
  seniority_score : ℚ := 0
  recency_score : ℚ := 0
  overall_score : ℚ := 0
  reasoning : String := ""
  contact : Contact := {}
  co_author_ids : List String := []
  affiliations : List String := []
  coi_flags : List COIFlag := []
  rank : ℕ := 0
deriving DecidableEq, Inhabited

/-- A record of the local `authors.json` store, as read by
`contact_service._load_authors_db` (only the fields `enrich_contact`
uses). -/
structure StoredAuthor where
  contact : Contact := {}
  co_author_ids : List String := []
  affiliations : List String := []
deriving DecidableEq, Inhabited

/-- The dict returned by `contact_service._fetch_openalex_contact`
(a failed or empty fetch is the default value; the function can only
ever produce these three keys). -/
structure OpenAlexContact where
  institution_page : Option String := none
  orcid : Option String := none
  orcid_url : Option String := none
deriving DecidableEq, Inhabited

/-- The dict returned by `contact_service._fetch_orcid_contact`
(a failed or empty fetch is the default value; the function can only
ever produce these three keys). -/
structure OrcidContact where
  email : Option String := none
  google_scholar : Option String := none
  homepage : Option String := none
deriving DecidableEq, Inhabited

/-! ## Contact service (`src/services/contact_service.py`) -/

/-- One key of `contact.update({k: v for k, v in d.items() if v})`:
overwrite only when the new value is present and truthy. -/
def updIf (new old : Option String) : Option String :=
  match new with
  | some s => if s = "" then old else some s
  | none => old

/-- As `updIf`, for a boolean-valued key. -/
def updIfBool (new old : Option Bool) : Option Bool :=
  match new with
  | some b => if b then some b else old
  | none => old

/-- One key of `contact.update({k: v for k, v in d.items() if v and k
not in contact})`: add only when the key is absent and the new value is
truthy. -/
def updIfAbsent (new old : Option String) : Option String :=
  match old with
  | some v => some v
  | none =>
    match new with
    | some s => if s = "" then none else some s
    | none => none

/-- Step 1 of `enrich_contact`: merge the stored contact dict
(truthy values overwrite). -/
def updateFromStored (ct sc : Contact) : Contact :=
  { email := updIf sc.email ct.email
    email_is_inferred := updIfBool sc.email_is_inferred ct.email_is_inferred
    orcid := updIf sc.orcid ct.orcid
    orcid_url := updIf sc.orcid_url ct.orcid_url
    homepage := updIf sc.homepage ct.homepage
    google_scholar := updIf sc.google_scholar ct.google_scholar
    institution_page := updIf sc.institution_page ct.institution_page
    openalex_url := updIf sc.openalex_url ct.openalex_url
    institution := updIf sc.institution ct.institution }

/-- Step 2 of `enrich_contact`: merge the OpenAlex fetch (truthy values
for keys not already present). -/
def updateFromOpenalex (ct : Contact) (oc : OpenAlexContact) : Contact :=
  { ct with
    institution_page := updIfAbsent oc.institution_page ct.institution_page
    orcid := updIfAbsent oc.orcid ct.orcid
    orcid_url := updIfAbsent oc.orcid_url ct.orcid_url }

/-- Step 3 of `enrich_contact`: merge the ORCID fetch (truthy values
overwrite). -/
def updateFromOrcid (ct : Contact) (oc : OrcidContact) : Contact :=
  { ct with
    email := updIf oc.email ct.email
    google_scholar := updIf oc.google_scholar ct.google_scholar
    homepage := updIf oc.homepage ct.homepage }

/-- The curated institution-to-domain table `_INSTITUTION_DOMAINS` (entries in source order; dict iteration order is insertion order). -/
def INSTITUTION_DOMAINS : List (String × String) := [
  ("imperial college london", "imperial.ac.uk"),
  ("university of oxford", "ox.ac.uk"),
  ("university of cambridge", "cam.ac.uk"),
  ("mit", "mit.edu"),
  ("massachusetts institute of technology", "mit.edu"),
  ("stanford university", "stanford.edu"),
  ("harvard university", "harvard.edu"),
  ("caltech", "caltech.edu"),
  ("california institute of technology", "caltech.edu"),
  ("university of california berkeley", "berkeley.edu"),
  ("uc berkeley", "berkeley.edu"),
  ("princeton university", "princeton.edu"),
  ("yale university", "yale.edu"),
  ("columbia university", "columbia.edu"),
  ("university of chicago", "uchicago.edu"),
  ("carnegie mellon university", "cmu.edu"),
  ("cornell university", "cornell.edu"),
  ("university of michigan", "umich.edu"),
  ("university of pennsylvania", "upenn.edu"),
  ("duke university", "duke.edu"),
  ("university of toronto", "utoronto.ca"),
  ("eth zurich", "ethz.ch"),
  ("university of tokyo", "u-tokyo.ac.jp"),
  ("national university of singapore", "nus.edu.sg"),
  ("peking university", "pku.edu.cn"),
  ("tsinghua university", "tsinghua.edu.cn"),
  ("university of melbourne", "unimelb.edu.au"),
  ("australian national university", "anu.edu.au"),
  ("university of edinburgh", "ed.ac.uk"),
  ("ucl", "ucl.ac.uk"),
  ("university college london", "ucl.ac.uk"),
  ("king\x27s college london", "kcl.ac.uk"),
  ("university of manchester", "manchester.ac.uk"),
  ("university of bristol", "bristol.ac.uk"),
  ("university of leeds", "leeds.ac.uk"),
  ("university of warwick", "warwick.ac.uk"),
  ("university of glasgow", "glasgow.ac.uk"),
  ("university of birmingham", "bham.ac.uk"),
  ("georgia institute of technology", "gatech.edu"),
  ("georgia tech", "gatech.edu"),
  ("university of washington", "uw.edu"),
  ("university of wisconsin", "wisc.edu"),
  ("university of texas at austin", "utexas.edu"),
  ("university of illinois", "illinois.edu"),
  ("university of minnesota", "umn.edu"),
  ("university of florida", "ufl.edu"),
  ("ohio state university", "osu.edu"),
  ("penn state university", "psu.edu"),
  ("pennsylvania state university", "psu.edu"),
  ("university of maryland", "umd.edu"),
  ("university of virginia", "virginia.edu"),
  ("university of north carolina", "unc.edu"),
  ("northwestern university", "northwestern.edu"),
  ("university of southern california", "usc.edu"),
  ("new york university", "nyu.edu"),
  ("boston university", "bu.edu"),
  ("rice university", "rice.edu"),
  ("purdue university", "purdue.edu"),
  ("indiana university", "indiana.edu"),
  ("michigan state university", "msu.edu"),
  ("arizona state university", "asu.edu"),
  ("university of colorado", "colorado.edu"),
  ("washington university in st. louis", "wustl.edu"),
  ("emory university", "emory.edu"),
  ("vanderbilt university", "vanderbilt.edu"),
  ("johns hopkins university", "jhu.edu"),
  ("brown university", "brown.edu"),
  ("dartmouth college", "dartmouth.edu"),
  ("university of california los angeles", "ucla.edu"),
  ("ucla", "ucla.edu"),
  ("university of california san diego", "ucsd.edu"),
  ("ucsd", "ucsd.edu"),
  ("university of california san francisco", "ucsf.edu"),
  ("ucsf", "ucsf.edu"),
  ("university of california davis", "ucdavis.edu"),
  ("university of california irvine", "uci.edu"),
  ("university of california santa barbara", "ucsb.edu"),
  ("university of california santa cruz", "ucsc.edu"),
  ("max planck", "mpg.de"),
  ("cnrs", "cnrs.fr"),
  ("inria", "inria.fr"),
  ("university of paris", "u-paris.fr"),
  ("sorbonne", "sorbonne-universite.fr"),
  ("delft university of technology", "tudelft.nl"),
  ("university of amsterdam", "uva.nl"),
  ("karolinska institute", "ki.se"),
  ("technical university of munich", "tum.de"),
  ("university of munich", "lmu.de"),
  ("humboldt university", "hu-berlin.de"),
  ("university of heidelberg", "uni-heidelberg.de"),
  ("rwth aachen", "rwth-aachen.de"),
  ("university of bologna", "unibo.it"),
  ("sapienza university", "uniroma1.it"),
  ("politecnico di milano", "polimi.it"),
  ("university of copenhagen", "ku.dk"),
  ("university of helsinki", "helsinki.fi"),
  ("university of oslo", "uio.no"),
  ("university of zurich", "uzh.ch"),
  ("epfl", "epfl.ch"),
  ("ben-gurion university", "bgu.ac.il"),
  ("technion", "technion.ac.il"),
  ("hebrew university", "huji.ac.il"),
  ("weizmann institute", "weizmann.ac.il"),
  ("korean advanced institute of science and technology", "kaist.ac.kr"),
  ("kaist", "kaist.ac.kr"),
  ("seoul national university", "snu.ac.kr"),
  ("nanyang technological university", "ntu.edu.sg"),
  ("indian institute of technology", "iitb.ac.in"),
  ("iit bombay", "iitb.ac.in"),
  ("iit delhi", "iitd.ac.in"),
  ("chinese academy of sciences", "cas.cn"),
  ("united states geological survey", "usgs.gov")]

/-- First word of `t` under `\w` (used to read a regex capture
`(\w...)` that starts at a token). -/
def wordRun (t : String) : String := String.mk (t.data.takeWhile isWordChar)

/-- Whole token matches `\w+`. -/
def allWord (t : String) : Bool := !t.data.isEmpty && t.data.all isWordChar

/-- `s` starts with `p`. -/
def strStartsWith (s p : String) : Bool := p.data.isPrefixOf s.data

/-- `re.match(r'(?:the\s+)?university\s+of\s+(\w[\w\s]*)', s)` read off
the whitespace tokens of `s`; returns the slug `group(1).split()[0]`. -/
def matchUniversityOf (ws : List String) : Option String :=
  let rest := match ws with
    | "the" :: r => r
    | r => r
  match rest with
  | "university" :: "of" :: t :: _ =>
    let slug := wordRun t
    if slug = "" then none else some slug
  | _ => none

/-- `re.match(r'(\w+)\s+university', s)` on the tokens of `s`. -/
def matchXUniversity (ws : List String) : Option String :=
  match ws with
  | w :: t :: _ => if allWord w && strStartsWith t "university" then some w else none
  | _ => none

/-- `re.match(r'(\w+)\s+institute\s+of\s+technology', s)` on tokens. -/
def matchInstTech (ws : List String) : Option String :=
  match ws with
  | w :: "institute" :: "of" :: t :: _ =>
    if allWord w && strStartsWith t "technology" then some w else none
  | _ => none

/-- `re.match(r'(\w+)\s+(?:research\s+)?institute', s)` on tokens. -/
def matchInstitute (ws : List String) : Option String :=
  match ws with
  | w :: t :: rest =>
    if allWord w then
      if strStartsWith t "institute" then some w
      else if t = "research" then
        match rest with
        | t2 :: _ => if strStartsWith t2 "institute" then some w else none
        | [] => none
      else none
    else none
  | _ => none

/-- `re.match(r'(\w+)\s+college', s)` on tokens. -/
def matchCollege (ws : List String) : Option String :=
  match ws with
  | w :: t :: _ => if allWord w && strStartsWith t "college" then some w else none
  | _ => none

/-- `re.match(r'(?:universit[eea]|universidad)\s+(?:de\s+)?(\w+)', s)`
(the character class is the accented `e`/`a` variants) on tokens,
including the backtracking case in which the optional `de\s+` group is
given up and `de` itself is captured. -/
def matchUniversite (ws : List String) : Option String :=
  match ws with
  | u :: t :: rest =>
    if u = "université" || u = "universite" || u = "università" || u = "universidad" then
      if t = "de" then
        match rest with
        | t2 :: _ =>
          let s2 := wordRun t2
          if s2 = "" then some "de" else some s2
        | [] => some "de"
      else
        let s := wordRun t
        if s = "" then none else some s
    else none
  | _ => none

/-- The final fallback of `_get_institution_domain`: first meaningful
word, commas and periods stripped. -/
def domainFallback (ws : List String) : Option String :=
  let skip_words := ["the", "national", "royal", "federal", "state", "central", "international"]
  let words := ws.filter (fun w => !(skip_words.contains w) && decide (2 < w.length))
  match words with
  | [] => none
  | w :: _ =>
    let slug := String.mk (w.data.filter (fun c => c != ',' && c != '.'))
    if 2 < slug.length then some slug else none

/-- `contact_service._get_institution_domain`: curated table (substring
match, either direction, first entry wins), then the regex heuristics in
source order, then the generic-word fallback. -/
def _get_institution_domain (institution : String) : Option String :=
  if institution = "" then none
  else
    let inst_lower := pyTrim (pyLower institution)
    match INSTITUTION_DOMAINS.find? (fun kv => pyIn kv.1 inst_lower || pyIn inst_lower kv.1) with
    | some kv => some kv.2
    | none =>
      let ws := pySplit inst_lower
      match matchUniversityOf ws with
      | some slug => some (slug ++ ".edu")
      | none =>
        match matchXUniversity ws with
        | some slug => some (slug ++ ".edu")
        | none =>
          match matchInstTech ws with
          | some slug => some (slug ++ ".edu")
          | none =>
            match matchInstitute ws with
            | some slug => some (slug ++ ".edu")
            | none =>
              match matchCollege ws with
              | some slug => some (slug ++ ".edu")
              | none =>
                match matchUniversite ws with
                | some slug => some (slug ++ ".edu")
                | none =>
                  match domainFallback ws with
                  | some slug => some (slug ++ ".edu")
                  | none => none

/-- `re.sub(r'[^a-zA-Z\s\-]', '', name).strip()` -/
def cleanName (name : String) : String :=
  pyTrim (String.mk (name.data.filter (fun c => c.isAlpha || c.isWhitespace || c = '-')))

/-- `contact_service._infer_email`. -/
def _infer_email (name institution : String) : Option String :=
  if name = "" || institution = "" then none
  else
    let parts := pySplit (cleanName name)
    if parts.length < 2 then none
    else
      let first := pyLower (parts.headD "")
      let last := pyLower (parts.getLastD "")
      match _get_institution_domain institution with
      | none => none
      | some domain => some (first ++ "." ++ last ++ "@" ++ domain)

/-- `contact_service._fallback_email`. -/
def _fallback_email (name institution : String) : Option String :=
  if name = "" then none
  else
    let parts := pySplit (cleanName name)
    if parts.length < 2 then none
    else
      let first := pyLower (parts.headD "")
      let last := pyLower (parts.getLastD "")
      if institution ≠ "" then
        let skip := ["the", "of", "and", "for", "in", "at", "de", "du", "des", "la", "le"]
        let words := (pySplit institution).filter
          (fun w => !(skip.contains (pyLower w)) && decide (1 < w.length))
        match words with
        | [] => some (first ++ "." ++ last ++ "@academic.edu")
        | _ =>
          let ab := if words.length ≤ 3 then words else words.take 4
          let abbr := String.mk (ab.map (fun w => lowerChar (w.data.headD ' ')))
          some (first ++ "." ++ last ++ "@" ++ abbr ++ ".edu")
      else some (first ++ "." ++ last ++ "@academic.edu")

/-- The step-5 trigger of `enrich_contact`:
`"email" not in contact or not contact["email"]`. -/
def emailMissing (ct : Contact) : Bool :=
  match ct.email with
  | none => true
  | some s => s = ""

/-- The flag value `enrich_contact` attaches to a fabricated email:
`(name_hash % 5) < 2`. -/
def inferredTag (name : String) : Bool := decide (nameHash name % 5 < 2)

/-- The externally visible calls of one pipeline invocation. -/
inductive ExtCall where
  | llmTopics
  | embedQuery
  | qdrantProbe
  | qdrantSearch
  | llmRerank
  | openalexAuthor
  | orcidProfile
deriving DecidableEq

/-- Step 1 of `enrich_contact`: when the author is in the local
`authors.json` store, merge its contact dict (truthy values overwrite)
and copy its co-author ids and affiliations onto the candidate. -/
def step1Of (db : String → Option StoredAuthor) (candidate : Candidate) : Candidate :=
  match db candidate.author_id with
  | some stored =>
    { candidate with
      contact := updateFromStored candidate.contact stored.contact
      co_author_ids := stored.co_author_ids
      affiliations := stored.affiliations }
  | none => candidate

/-- Steps 1-4 of `enrich_contact` together with the external calls they
issue (the OpenAlex fetch of step 2 and the ORCID fetch of step 3, each
made only under its guard). -/
def enrichBaseT (db : String → Option StoredAuthor)
    (fetch_openalex : String → OpenAlexContact)
    (fetch_orcid : String → OrcidContact)
    (candidate : Candidate) : Candidate × List ExtCall :=
  let author_id := candidate.author_id
  let step1 := step1Of db candidate
  let call2 := author_id ≠ "" ∧ step1.contact.email = none
  let contact2 :=
    if call2 then updateFromOpenalex step1.contact (fetch_openalex author_id)
    else step1.contact
  let orcid_id :=
    match contact2.orcid with
    | some s => if s = "" then candidate.orcid else s
    | none => candidate.orcid
  let call3 := orcid_id ≠ "" ∧ contact2.email = none
  let contact3 :=
    if call3 then updateFromOrcid contact2 (fetch_orcid orcid_id)
    else contact2
  let contact4 :=
    if author_id ≠ "" then
      { contact3 with
        openalex_url := some ("https://openalex.org/" ++
          pyReplace author_id "https://openalex.org/" "") }
    else contact3
  ({ step1 with contact := contact4 },
    (if call2 then [ExtCall.openalexAuthor] else []) ++
    (if call3 then [ExtCall.orcidProfile] else []))

/-- Steps 1-4 of `enrich_contact` (the enriched candidate alone). -/
def enrichBase (db : String → Option StoredAuthor)
    (fetch_openalex : String → OpenAlexContact)
    (fetch_orcid : String → OrcidContact)
    (candidate : Candidate) : Candidate :=
  (enrichBaseT db fetch_openalex fetch_orcid candidate).1

/-- Step 5 of `enrich_contact`: when the email is still missing or
empty, fabricate one by pattern inference or the last-resort fallback,
tagging it `email_is_inferred = (name_hash % 5) < 2`. -/
def step5 (name institution : String) (c1 : Candidate) : Candidate :=
  if emailMissing c1.contact then
    match _infer_email name institution with
    | some inferred =>
      { c1 with contact := { c1.contact with
          email := some inferred
          email_is_inferred := some (inferredTag name) } }
    | none =>
      match _fallback_email name institution with
      | some fb =>
        { c1 with contact := { c1.contact with
            email := some fb
            email_is_inferred := some (inferredTag name) } }
      | none => c1
  else c1

/-- `contact_service.enrich_contact`: the four lookup steps, then the
inferred-email fabrication of step 5. -/
def enrich_contact (db : String → Option StoredAuthor)
    (fetch_openalex : String → OpenAlexContact)
    (fetch_orcid : String → OrcidContact)
    (candidate : Candidate) : Candidate :=
  step5 candidate.name candidate.institution
    (enrichBase db fetch_openalex fetch_orcid candidate)

/-- `contact_service.enrich_candidates`. -/
def enrich_candidates (db : String → Option StoredAuthor)
    (fetch_openalex : String → OpenAlexContact)
    (fetch_orcid : String → OrcidContact)
    (candidates : List Candidate) : List Candidate :=
  candidates.map (enrich_contact db fetch_openalex fetch_orcid)

/-! ## Heuristic re-ranking (`src/services/llm_service.py`, mock mode)

`_mock_rerank` is the scoring engine used whenever no LLM credential is
configured (and the fallback target of the remote strategy).  The query
side is computed once; `scoreCandidate` is the per-candidate body of its
loop. -/

/-- The stop-word set `_STOPWORDS` of `llm_service` (source order). -/
def _STOPWORDS : List String := [
  "the", "and", "for", "are", "but", "not", "you", "all",
  "can", "had", "her", "was", "one", "our", "out", "has",
  "have", "been", "from", "this", "that", "with", "they", "will",
  "each", "make", "like", "into", "over", "such", "than", "them",
  "then", "these", "some", "would", "other", "about", "which", "their",
  "there", "could", "more", "also", "most", "here", "both", "after",
  "those", "using", "used", "based", "show", "shown", "well", "however",
  "between", "through", "where", "while", "during", "before", "should", "results",
  "paper", "study", "method", "methods", "approach", "propose", "proposed", "present",
  "presented", "demonstrate", "existing", "recent", "first", "second", "new", "novel",
  "different", "important", "significant", "provide", "provides", "including", "across", "within",
  "without", "performance", "compared", "model", "models", "data", "analysis"]

/-- Cast a natural number to `ℚ`, kernel-computably. -/
def qOfNat (n : ℕ) : ℚ := Rat.divInt (n : ℤ) 1

/-- Cast an integer to `ℚ`, kernel-computably. -/
def qOfInt (z : ℤ) : ℚ := Rat.divInt z 1

/-- Adjacent non-stop-word pairs of a token list, joined with a space
(the bigram construction of `_mock_rerank` and `_mock_extract_topics`). -/
def bigramsOf (ws : List String) : List String :=
  (ws.zip ws.tail).filterMap (fun p =>
    if !(_STOPWORDS.contains p.1) && !(_STOPWORDS.contains p.2) then
      some (p.1 ++ " " ++ p.2)
    else none)

/-- The query-side context `_mock_rerank` computes before its candidate
loop: `query_terms`, `query_bigrams`, `kw_terms` and the keyword list
itself. -/
structure QueryCtx where
  query_terms : Finset String
  query_bigrams : Finset String
  kw_terms : Finset String
  keywords : List String
deriving DecidableEq

/-- Build the `QueryCtx` exactly as `_mock_rerank` does. -/
def mkQueryCtx (title abstract : String) (keywords : List String) : QueryCtx :=
  let query_terms :=
    ((pyTokens (pyLower title) ++ pyTokens (pyLower abstract) ++
      keywords.flatMap (fun k => pyTokens (pyLower k))).toFinset) \ _STOPWORDS.toFinset
  let query_text := pyLower (title ++ " " ++ abstract ++ " " ++ String.intercalate " " keywords)
  let query_words := pyTokens query_text
  { query_terms := query_terms
    query_bigrams := (bigramsOf query_words).toFinset
    kw_terms := (keywords.flatMap (fun k => pyTokens (pyLower k))).toFinset \ _STOPWORDS.toFinset
    keywords := keywords }

/-- The candidate term set of `_mock_rerank`: tokens of the topic labels
plus, when a research summary is present, tokens of the summary, all
minus stop words. -/
def candidateTerms (c : Candidate) : Finset String :=
  let base := ((c.topics.flatMap (fun t => pyTokens (pyLower t))).toFinset) \ _STOPWORDS.toFinset
  if c.research_summary ≠ "" then
    base ∪ ((pyTokens (pyLower c.research_summary)).toFinset \ _STOPWORDS.toFinset)
  else base

/-- The candidate bigram set of `_mock_rerank`, built over
`" ".join(topics).lower() + " " + summary.lower()`. -/
def candidateBigrams (c : Candidate) : Finset String :=
  let cand_text := pyLower (String.intercalate " " c.topics) ++ " " ++ pyLower c.research_summary
  (bigramsOf (pyTokens cand_text)).toFinset

/-- One keyword's contribution to `phrase_hits`: 1 when at least half of
the keyword's significant words (and at least one) appear together in
some topic label. -/
def phraseHit (topic_phrases : List String) (kw : String) : ℕ :=
  let kw_words := (pyTokens (pyLower kw)).toFinset \ _STOPWORDS.toFinset
  if kw_words = ∅ then 0
  else if topic_phrases.any (fun tp =>
    let tp_words := (pyTokens tp).toFinset \ _STOPWORDS.toFinset
    decide (qMax (qMul (qOfNat kw_words.card) (Rat.divInt 5 10)) (qOfNat 1)
      ≤ qOfNat (kw_words ∩ tp_words).card)) then 1
  else 0

/-- The seniority step function of `_mock_rerank` (h-index bands). -/
def seniorityScore (h : ℤ) : ℚ :=
  if 50 ≤ h then Rat.divInt 98 10
  else if 40 ≤ h then Rat.divInt 95 10
  else if 30 ≤ h then Rat.divInt 90 10
  else if 25 ≤ h then Rat.divInt 85 10
  else if 18 ≤ h then Rat.divInt 80 10
  else if 12 ≤ h then Rat.divInt 75 10
  else if 8 ≤ h then Rat.divInt 70 10
  else if 5 ≤ h then Rat.divInt 60 10
  else if 3 ≤ h then Rat.divInt 50 10
  else Rat.divInt 35 10

/-- The recency step function of `_mock_rerank` (years since the last
publication, parsed from the first four characters of the date). -/
def recencyScore (last_pub : String) : ℚ :=
  if last_pub ≠ "" ∧ 4 ≤ last_pub.length then
    match pyParseInt (pyStrTake last_pub 4) with
    | some pub_year =>
      let years_ago : ℤ := 2026 - pub_year
      if years_ago ≤ 0 then Rat.divInt 98 10
      else if years_ago ≤ 1 then Rat.divInt 95 10
      else if years_ago ≤ 2 then Rat.divInt 85 10
      else if years_ago ≤ 3 then Rat.divInt 75 10
      else if years_ago ≤ 5 then Rat.divInt 55 10
      else Rat.divInt 30 10
    | none => Rat.divInt 50 10
  else Rat.divInt 50 10

/-- The topic-score numerator pieces of `_mock_rerank`, gathered into
one term: the blended overlap ratios scaled to 0-10
(`raw_topic = (coverage*0.20 + kw*0.25 + bigram*0.20 + phrase*0.35) * 10`). -/
def rawTopicOf (ctx : QueryCtx) (c : Candidate) : ℚ :=
  let candidate_terms := candidateTerms c
  let overlap := (ctx.query_terms ∩ candidate_terms).card
  let cand_coverage := qDiv (qOfNat overlap) (qOfNat (max candidate_terms.card 1))
  let kw_overlap :=
    if ctx.kw_terms = ∅ then 0
    else qDiv (qOfNat (ctx.kw_terms ∩ candidate_terms).card) (qOfNat (max ctx.kw_terms.card 1))
  let cand_bigrams := candidateBigrams c
  let bigram_overlap :=
    if cand_bigrams = ∅ then 0
    else qDiv (qOfNat (ctx.query_bigrams ∩ cand_bigrams).card) (qOfNat (max cand_bigrams.card 1))
  let topic_phrases := c.topics.map pyLower
  let phrase_hits := (ctx.keywords.map (phraseHit topic_phrases)).sum
  let phrase_match :=
    if ctx.keywords = [] then 0
    else qDiv (qOfNat phrase_hits) (qOfNat (max ctx.keywords.length 1))
  qMul
    (qAdd (qAdd (qAdd (qMul cand_coverage (Rat.divInt 20 100))
      (qMul kw_overlap (Rat.divInt 25 100)))
      (qMul bigram_overlap (Rat.divInt 20 100)))
      (qMul phrase_match (Rat.divInt 35 100))) 10

/-- The similarity-derived floor of the topic score:
`max((similarity - 0.25) / 0.45, 0) * 10`. -/
def vecTopicFloorOf (c : Candidate) : ℚ :=
  qMul (qMax (qDiv (qSub c.score (Rat.divInt 25 100)) (Rat.divInt 45 100)) 0) 10

/-- The (unrounded) topic score of `_mock_rerank`: the keyword blend and
the similarity signal mixed 50/50, floored by `vecTopicFloorOf` and
capped at 10. -/
def topicScoreOf (ctx : QueryCtx) (c : Candidate) : ℚ :=
  qMin (qMax (qAdd (qMul (rawTopicOf ctx c) (Rat.divInt 50 100))
    (qMul (qMul c.score 10) (Rat.divInt 50 100))) (vecTopicFloorOf c)) 10

/-- The (unrounded) methodology score of `_mock_rerank`:
`min(max((similarity - 0.2) / 0.5, 0) * 10, 10)`. -/
def methodologyScoreOf (c : Candidate) : ℚ :=
  qMin (qMul (qMax (qDiv (qSub c.score (Rat.divInt 20 100)) (Rat.divInt 50 100)) 0) 10) 10

/-- The (unrounded) weighted overall score of `_mock_rerank`:
`topic*0.35 + methodology*0.30 + seniority*0.15 + recency*0.20`. -/
def overallOf (ctx : QueryCtx) (c : Candidate) : ℚ :=
  qAdd (qAdd (qAdd (qMul (topicScoreOf ctx c) (Rat.divInt 35 100))
    (qMul (methodologyScoreOf c) (Rat.divInt 30 100)))
    (qMul (seniorityScore c.h_index) (Rat.divInt 15 100)))
    (qMul (recencyScore c.last_publication_date) (Rat.divInt 20 100))

/-- The templated reasoning sentence of `_mock_rerank`, assembled from
the unrounded scores and thresholds. -/
def reasoningOf (ctx : QueryCtx) (c : Candidate) : String :=
  let overlap := (ctx.query_terms ∩ candidateTerms c).card
  let topic_score := topicScoreOf ctx c
  let methodology_score := methodologyScoreOf c
  let h := c.h_index
  let last_pub := c.last_publication_date
  let part1 :=
    if (7 : ℚ) ≤ topic_score then
      "Strong topic alignment (" ++ toString overlap ++ " matching terms)"
    else if (4 : ℚ) ≤ topic_score then
      "Good topic relevance (" ++ toString overlap ++ " matching terms)"
    else if 0 < overlap then
      "Some topic overlap (" ++ toString overlap ++ " matching terms)"
    else "Related domain expertise"
  let parts2 :=
    if (7 : ℚ) ≤ methodology_score then ["strong methodological match"]
    else if (4 : ℚ) ≤ methodology_score then ["relevant methodological expertise"]
    else []
  let parts3 :=
    if 25 ≤ h then ["senior researcher (h-index: " ++ toString h ++ ")"]
    else if 12 ≤ h then ["established researcher (h-index: " ++ toString h ++ ")"]
    else if 5 ≤ h then ["active researcher (h-index: " ++ toString h ++ ")"]
    else []
  let parts4 :=
    if last_pub ≠ "" ∧ pyStrGe last_pub "2024" then ["actively publishing"] else []
  pyCapitalize (String.intercalate ". " ([part1] ++ parts2 ++ parts3 ++ parts4)) ++ "."

/-- The body of the candidate loop of `_mock_rerank`: compute the four
sub-scores and the overall score, the reasoning sentence, and store the
scores rounded to one decimal. -/
def scoreCandidate (ctx : QueryCtx) (c : Candidate) : Candidate :=
  { c with
    topic_score := round1 (topicScoreOf ctx c)
    methodology_score := round1 (methodologyScoreOf c)
    seniority_score := round1 (seniorityScore c.h_index)
    recency_score := round1 (recencyScore c.last_publication_date)
    overall_score := round1 (overallOf ctx c)
    reasoning := reasoningOf ctx c }

/-- Insert a candidate into a list, before the first entry whose key
does not exceed its own. -/
def insDescBy (key : Candidate → ℚ) (c : Candidate) : List Candidate → List Candidate
  | [] => [c]
  | d :: ds => if key d ≤ key c then c :: d :: ds else d :: insDescBy key c ds

/-- Stable descending sort by a rational key.  Python's `list.sort`
(with `reverse=True`) is stable, and a stable descending sort is the
unique reordering that is descending and keeps equal keys in input
order, so this insertion sort computes it. -/
def sortDescBy (key : Candidate → ℚ) : List Candidate → List Candidate
  | [] => []
  | c :: cs => insDescBy key c (sortDescBy key cs)

/-- `scored.sort(key=lambda x: x["overall_score"], reverse=True)`. -/
def sortByOverallDesc (l : List Candidate) : List Candidate :=
  sortDescBy (fun c => c.overall_score) l

/-- `llm_service._mock_rerank`: score every candidate, then sort by
descending overall score (stable). -/
def _mock_rerank (title abstract : String) (keywords : List String)
    (candidates : List Candidate) : List Candidate :=
  sortByOverallDesc (candidates.map (scoreCandidate (mkQueryCtx title abstract keywords)))

/-! ## COI detection (`src/services/coi_service.py`) -/

/-- Deduplicate preserving first occurrence.  `detect_conflicts` builds
`candidate_institutions` as a Python `set`; its iteration order is
implementation-defined, and only the choice of the institution string
named in a `same_institution` detail depends on it.  Insertion order is
used here. -/
def insertDistinct (l : List String) : List String :=
  l.foldl (fun acc s => if acc.contains s then acc else acc ++ [s]) []

/-- The co-authorship flags of `detect_conflicts`: only produced when
`paper_author_ids` is truthy (neither `None` nor empty). -/
def coFlagsOf (candidate : Candidate) (paper_author_ids : Option (List String)) : List COIFlag :=
  match paper_author_ids with
  | none => []
  | some ids =>
    if ids.isEmpty then []
    else ids.filterMap (fun aid =>
      if candidate.co_author_ids.contains aid then
        some { type := "co_author"
               detail := "Has co-authored with paper author (ID: " ++ aid ++ ")"
               severity := "high" }
      else none)

/-- The institution flags of `detect_conflicts`: at most one flag per
excluded institution, on a case-insensitive substring match in either
direction against any candidate affiliation or the payload
institution. -/
def instFlagsOf (candidate : Candidate) (paper_author_institutions : List String) : List COIFlag :=
  let payload_inst := pyTrim (pyLower candidate.institution)
  let candidate_institutions := insertDistinct
    (((candidate.affiliations.map (fun a => pyTrim (pyLower a))).filter (fun i => i ≠ "")) ++
      (if payload_inst ≠ "" then [payload_inst] else []))
  paper_author_institutions.filterMap (fun paper_inst =>
    let pl := pyTrim (pyLower paper_inst)
    match candidate_institutions.find? (fun ci =>
        pl ≠ "" && ci ≠ "" && (pyIn pl ci || pyIn ci pl)) with
    | some ci =>
      some { type := "same_institution"
             detail := "Same institution: " ++ ci
             severity := "medium" }
    | none => none)

/-- The name flags of `detect_conflicts`: an exact case-insensitive
match yields `same_person`/`critical`; otherwise a shared last token of
length greater than 2 yields `possible_relation`/`low`. -/
def nameFlagsOf (candidate : Candidate) (paper_author_names : List String) : List COIFlag :=
  let candidate_name := pyTrim (pyLower candidate.name)
  paper_author_names.flatMap (fun author_name =>
    let author_lower := pyTrim (pyLower author_name)
    if author_lower ≠ "" ∧ candidate_name ≠ "" then
      if author_lower = candidate_name then
        [{ type := "same_person"
           detail := "Candidate name matches paper author: " ++ author_name
           severity := "critical" }]
      else if (pySplit author_lower).getLastD "" = (pySplit candidate_name).getLastD ""
          ∧ 2 < ((pySplit candidate_name).getLastD "").length then
        [{ type := "possible_relation"
           detail := "Shares last name with paper author: " ++ author_name
           severity := "low" }]
      else []
    else [])

/-- `coi_service.detect_conflicts`: the three independent checks, flags
accumulated in source order. -/
def detect_conflicts (candidate : Candidate)
    (paper_author_names paper_author_institutions : List String)
    (paper_author_ids : Option (List String)) : List COIFlag :=
  coFlagsOf candidate paper_author_ids ++
  instFlagsOf candidate paper_author_institutions ++
  nameFlagsOf candidate paper_author_names

/-- `coi_service.check_all_candidates`: attach the flag list to every
candidate. -/
def check_all_candidates (candidates : List Candidate)
    (paper_author_names paper_author_institutions : List String)
    (paper_author_ids : Option (List String)) : List Candidate :=
  candidates.map (fun c =>
    { c with
      coi_flags :=
        detect_conflicts c paper_author_names paper_author_institutions paper_author_ids })

/-! ## In-memory vector search (`src/services/search_service.py`) -/

/-- One row of the in-memory index: an embedding vector and its parallel
metadata record (spread into the result dict, which the `Candidate`
structure models; the metadata files carry no `score` key). -/
structure IndexRow where
  vec : List ℚ
  meta : Candidate
deriving DecidableEq, Inhabited

/-- Dot product (the rows of `embeddings.npy` against the query). -/
def dotQ : List ℚ → List ℚ → ℚ
  | a :: as, b :: bs => qAdd (qMul a b) (dotQ as bs)
  | _, _ => 0

/-- The collection loop of `_search_inmemory`: scan in score order,
skip records below the works threshold, and stop once `limit` results
have been collected (the bound is checked after each append, so a
non-positive `limit` still yields one record). -/
def collectScan (limit min_works : ℤ) : ℤ → List Candidate → List Candidate
  | _, [] => []
  | taken, m :: rest =>
    if m.works_count < min_works then collectScan limit min_works taken rest
    else if limit ≤ taken + 1 then [m]
    else m :: collectScan limit min_works (taken + 1) rest

/-- `search_service._search_inmemory`.  The code divides the query by
its Euclidean norm when that norm is positive; the norm is not rational,
so the positive scalar `1/‖query‖` is the explicit parameter `eta`
(`1` when the norm is zero), which rescales every similarity by the
same positive factor.  numpy's `argsort` (followed by reversal) sorts
descending with an implementation-defined tie order; ties are modelled
in stable descending order. -/
def _search_inmemory (eta : ℚ) (index : List IndexRow) (query : List ℚ)
    (limit min_works : ℤ) : List Candidate :=
  let scored := index.map (fun r => { r.meta with score := qMul eta (dotQ r.vec query) })
  let ordered := sortDescBy (fun c => c.score) scored
  collectScan limit min_works 0 ordered

/-- Modelled from the spec (§4.3, local retrieval backend; missing from
the code, which has no exclusion parameter): compute the similarities,
sort descending, then apply the minimum-works filter *and the exclusion
filter* while scanning in score order, stopping once `limit` results
are collected. -/
def referenceRetrieve (eta : ℚ) (index : List IndexRow) (query : List ℚ)
    (limit min_works : ℤ) (exclude_ids : List String) : List Candidate :=
  let scored := index.map (fun r => { r.meta with score := qMul eta (dotQ r.vec query) })
  let ordered := sortDescBy (fun c => c.score) scored
  (ordered.filter (fun c =>
    min_works ≤ c.works_count && !(exclude_ids.contains c.author_id))).take limit.toNat

/-! ## Pipeline (`search_service.find_reviewers` and the `app.py`
submit handler)

External effects are oracle parameters: `llm_live` is whether an
Anthropic credential is configured (`not llm_service.USE_MOCK`),
`live_rerank` is the remote re-ranking strategy (used only when
`llm_live` and the call does not raise), `qdrant_up` is the result of
the availability probe, `retrieved` is the output of the vector-search
stage, `rerank_fails` is whether `rerank_candidates` raised, and `db`,
`fetch_openalex`, `fetch_orcid` are the contact stores.  The extracted
topic profile is threaded through to the result unchanged and no claim
depends on it, so it is not modelled.  The trace of outbound external
calls is recorded in `calls`. -/

/-- `enrich_candidates` with its external-call trace. -/
def enrich_candidatesT (db : String → Option StoredAuthor)
    (fetch_openalex : String → OpenAlexContact)
    (fetch_orcid : String → OrcidContact)
    (candidates : List Candidate) : List Candidate × List ExtCall :=
  (candidates.map (enrich_contact db fetch_openalex fetch_orcid),
   candidates.flatMap (fun c => (enrichBaseT db fetch_openalex fetch_orcid c).2))

/-- The per-candidate fallback scoring applied by `find_reviewers` when
re-ranking raises: vector score scaled by 10, fixed methodology and
recency, h-index-based seniority — with no clamping of the similarity
term. -/
def fallbackScore (c : Candidate) : Candidate :=
  { c with
    overall_score := qMul c.score 10
    topic_score := qMul c.score 10
    methodology_score := 5
    seniority_score := qMin (qDiv (qOfInt c.h_index) (qOfNat 5)) 10
    recency_score := 5
    reasoning := "Ranked by vector similarity (LLM re-ranking unavailable)" }

/-- Python `l[:n]` for an `int` bound: a nonnegative bound takes a
prefix; a negative bound drops `-n` elements from the end. -/
def pySliceTake (n : ℤ) (l : List Candidate) : List Candidate :=
  if 0 ≤ n then l.take n.toNat
  else l.take (l.length - (-n).toNat)

/-- `for i, r in enumerate(reviewers): r["rank"] = i + 1`. -/
def addRanks (l : List Candidate) : List Candidate :=
  l.enum.map (fun p => { p.2 with rank := p.1 + 1 })

/-- The scoring stage of `find_reviewers`: cap the retrieval output at
30 candidates, then score with the error fallback, the remote strategy,
or the heuristic `_mock_rerank`. -/
def scoredFor (llm_live : Bool) (live_rerank : List Candidate → List Candidate)
    (rerank_fails : Bool) (title abstract : String) (keywords : List String)
    (retrieved : List Candidate) : List Candidate :=
  let candidates_for_rerank := retrieved.take (min retrieved.length 30)
  if rerank_fails then candidates_for_rerank.map fallbackScore
  else if llm_live then live_rerank candidates_for_rerank
  else _mock_rerank title abstract keywords candidates_for_rerank

/-- The result dict of `find_reviewers` (`steps` strings are not
modelled; `no_candidates` is the early return taken when the vector
search yields nothing). -/
structure FindResult where
  reviewers : List Candidate := []
  vector_candidates : ℕ := 0
  reranked_candidates : ℕ := 0
  final_reviewers : ℕ := 0
  no_candidates : Bool := false
  calls : List ExtCall := []
deriving DecidableEq, Inhabited

/-- `search_service.find_reviewers`: topic extraction, query embedding,
availability probe and vector search (their outputs are the oracle
inputs), the 30-candidate cap, re-ranking (heuristic, remote, or the
error fallback), contact enrichment, COI annotation without author ids,
truncation to `num_reviewers` and rank assignment.  Note the function
performs no input validation. -/
def find_reviewers (llm_live : Bool)
    (live_rerank : List Candidate → List Candidate)
    (qdrant_up : Bool)
    (retrieved : List Candidate)
    (rerank_fails : Bool)
    (db : String → Option StoredAuthor)
    (fetch_openalex : String → OpenAlexContact)
    (fetch_orcid : String → OrcidContact)
    (title abstract : String)
    (keywords author_names author_institutions : List String)
    (num_reviewers : ℤ) : FindResult :=
  let pre_calls :=
    (if llm_live then [ExtCall.llmTopics] else []) ++
    [ExtCall.embedQuery, ExtCall.qdrantProbe] ++
    (if qdrant_up then [ExtCall.qdrantSearch] else [])
  if retrieved.isEmpty then
    { reviewers := []
      vector_candidates := 0
      reranked_candidates := 0
      final_reviewers := 0
      no_candidates := true
      calls := pre_calls }
  else
    let rerank_call := if llm_live then [ExtCall.llmRerank] else []
    let scored := scoredFor llm_live live_rerank rerank_fails title abstract keywords retrieved
    let enrichedT := enrich_candidatesT db fetch_openalex fetch_orcid scored
    let checked := check_all_candidates enrichedT.1 author_names author_institutions none
    let reviewers := addRanks (pySliceTake num_reviewers checked)
    { reviewers := reviewers
      vector_candidates := retrieved.length
      reranked_candidates := checked.length
      final_reviewers := reviewers.length
      no_candidates := false
      calls := pre_calls ++ rerank_call ++ enrichedT.2 }

/-- Outcome of the `app.py` submit handler. -/
inductive SubmitOutcome where
  | validationError (msg : String)
  | results (r : FindResult)
deriving DecidableEq

/-- The `Find Reviewers` submit handler of the review stage of
`src/app.py`: `if not title or not abstract: st.error(...)` — only a
non-empty title and abstract reach `find_reviewers`.  The second
component is the external-call trace of the handler. -/
def appFindReviewers (llm_live : Bool)
    (live_rerank : List Candidate → List Candidate)
    (qdrant_up : Bool)
    (retrieved : List Candidate)
    (rerank_fails : Bool)
    (db : String → Option StoredAuthor)
    (fetch_openalex : String → OpenAlexContact)
    (fetch_orcid : String → OrcidContact)
    (title abstract : String)
    (keywords author_names author_institutions : List String)
    (num_reviewers : ℤ) : SubmitOutcome × List ExtCall :=
  if title = "" ∨ abstract = "" then
    (SubmitOutcome.validationError "Please provide both a title and an abstract.", [])
  else
    let r := find_reviewers llm_live live_rerank qdrant_up retrieved rerank_fails
      db fetch_openalex fetch_orcid title abstract keywords author_names
      author_institutions num_reviewers
    (SubmitOutcome.results r, r.calls)


/-- The fields of a candidate that the post-scoring stages (contact
enrichment, COI annotation, rank assignment) may write, reset to their
defaults.  Two candidates with the same `core` agree on everything the
scoring stage produced — in particular on all five scores — so `core`
is the identity signature used to state order preservation across the
pipeline tail. -/
def core (c : Candidate) : Candidate :=
  { c with contact := {}, co_author_ids := [], affiliations := [], coi_flags := [], rank := 0 }

/-! ## Ground lemmas for the arithmetic and rounding layer -/

theorem qAdd_eq (a b : ℚ) : qAdd a b = a + b := by
  rw [qAdd]
  conv_rhs => rw [← Rat.num_divInt_den a, ← Rat.num_divInt_den b,
    Rat.divInt_add_divInt _ _ (Int.natCast_ne_zero.mpr a.den_nz)
      (Int.natCast_ne_zero.mpr b.den_nz)]

theorem qMul_eq (a b : ℚ) : qMul a b = a * b := by
  rw [qMul]
  conv_rhs => rw [← Rat.num_divInt_den a, ← Rat.num_divInt_den b,
    Rat.divInt_mul_divInt']

theorem qNeg_eq (a : ℚ) : qNeg a = -a := by
  rw [qNeg, Rat.neg_def]

theorem qSub_eq (a b : ℚ) : qSub a b = a - b := by
  rw [qSub, qAdd_eq, qNeg_eq, sub_eq_add_neg]

theorem qInv_eq (a : ℚ) : qInv a = a⁻¹ := by
  rw [qInv, Rat.inv_def']

theorem qDiv_eq (a b : ℚ) : qDiv a b = a / b := by
  rw [qDiv, qMul_eq, qInv_eq, div_eq_mul_inv]

theorem qMin_eq (a b : ℚ) : qMin a b = min a b := by
  rw [qMin, min_def]

theorem qMax_eq (a b : ℚ) : qMax a b = max a b := by
  rw [qMax, max_def]

theorem ratFloor_eq_floor (x : ℚ) : Rat.floor x = ⌊x⌋ := by
  rw [Rat.floor_def', Rat.floor_def]

theorem roundHalfEven_mem (x : ℚ) :
    roundHalfEven x = ⌊x⌋ ∨ roundHalfEven x = ⌊x⌋ + 1 := by
  rw [roundHalfEven]
  simp only [ratFloor_eq_floor]
  split
  · exact Or.inl rfl
  · split
    · exact Or.inr rfl
    · split
      · exact Or.inl rfl
      · exact Or.inr rfl

theorem abs_roundHalfEven_sub (x : ℚ) :
    |(roundHalfEven x : ℚ) - x| ≤ 1 / 2 := by
  have hfl : (⌊x⌋ : ℚ) ≤ x := Int.floor_le x
  have hfu : x < (⌊x⌋ : ℚ) + 1 := Int.lt_floor_add_one x
  rw [roundHalfEven]
  simp only [ratFloor_eq_floor, qSub_eq, Rat.divInt_eq_div, Int.cast_one, div_one]
  push_cast
  split
  · next h =>
    rw [abs_le]
    constructor <;> linarith
  · next h =>
    push_neg at h
    split
    · next h2 =>
      rw [abs_le]
      constructor <;> linarith
    · next h2 =>
      push_neg at h2
      have hhalf : x - (⌊x⌋ : ℚ) = 1 / 2 := le_antisymm h2 h
      split
      · rw [abs_le]
        constructor <;> linarith
      · rw [abs_le]
        constructor <;> linarith

theorem le_roundHalfEven (x : ℚ) : (⌊x⌋ : ℤ) ≤ roundHalfEven x := by
  rcases roundHalfEven_mem x with h | h <;> omega

theorem roundHalfEven_nonneg {x : ℚ} (h : 0 ≤ x) : 0 ≤ roundHalfEven x := by
  have h0 : (0 : ℤ) ≤ ⌊x⌋ := by
    rw [Int.le_floor]
    exact_mod_cast h
  have := le_roundHalfEven x
  omega

theorem half_le_of_roundHalfEven_ne_floor {x : ℚ}
    (h : roundHalfEven x ≠ ⌊x⌋) : 1 / 2 ≤ x - ⌊x⌋ := by
  rw [roundHalfEven] at h
  simp only [ratFloor_eq_floor, qSub_eq, Rat.divInt_eq_div, Int.cast_one, div_one] at h
  push_cast at h
  split at h
  · exact absurd rfl h
  · next hcond =>
    push_neg at hcond
    exact hcond

theorem roundHalfEven_le {x : ℚ} {B : ℤ} (h : x ≤ B) : roundHalfEven x ≤ B := by
  have hfB : ⌊x⌋ ≤ B := by
    have h2 := Int.floor_le_floor (α := ℚ) h
    simpa using h2
  rcases roundHalfEven_mem x with he | he
  · omega
  · by_contra hc
    push_neg at hc
    have hfB' : ⌊x⌋ = B := by omega
    have hne : roundHalfEven x ≠ ⌊x⌋ := by omega
    have h12 := half_le_of_roundHalfEven_ne_floor hne
    rw [hfB'] at h12
    linarith

theorem round1_eq_div (x : ℚ) :
    round1 x = (roundHalfEven (x * 10) : ℚ) / 10 := by
  rw [round1, Rat.divInt_eq_div, qMul_eq]
  norm_num

theorem abs_round1_sub (x : ℚ) : |round1 x - x| ≤ 1 / 20 := by
  have h := abs_roundHalfEven_sub (x * 10)
  rw [round1_eq_div]
  have : (roundHalfEven (x * 10) : ℚ) / 10 - x
      = ((roundHalfEven (x * 10) : ℚ) - x * 10) / 10 := by ring
  rw [this, abs_div]
  rw [show |(10 : ℚ)| = 10 by norm_num]
  linarith [h]

theorem round1_nonneg {x : ℚ} (h : 0 ≤ x) : 0 ≤ round1 x := by
  rw [round1_eq_div]
  have := roundHalfEven_nonneg (x := x * 10) (by linarith)
  positivity

theorem round1_le_ten {x : ℚ} (h : x ≤ 10) : round1 x ≤ 10 := by
  rw [round1_eq_div]
  have h100 : roundHalfEven (x * 10) ≤ (100 : ℤ) :=
    roundHalfEven_le (by push_cast; linarith)
  have h100q : ((roundHalfEven (x * 10) : ℤ) : ℚ) ≤ (100 : ℚ) := by
    exact_mod_cast h100
  rw [div_le_iff₀ (by norm_num)]
  linarith

theorem round1_mem_unit {x : ℚ} (h0 : 0 ≤ x) (h10 : x ≤ 10) :
    0 ≤ round1 x ∧ round1 x ≤ 10 :=
  ⟨round1_nonneg h0, round1_le_ten h10⟩

theorem qOfNat_eq (n : ℕ) : qOfNat n = (n : ℚ) := by
  rw [qOfNat, Rat.divInt_eq_div]
  push_cast
  exact div_one _

theorem qOfInt_eq (z : ℤ) : qOfInt z = (z : ℚ) := by
  rw [qOfInt, Rat.divInt_eq_div]
  push_cast
  exact div_one _

/-! ## Sorting lemmas: `sortDescBy` is descending and stable -/

theorem mem_insDescBy {key : Candidate → ℚ} {c a : Candidate} {l : List Candidate} :
    a ∈ insDescBy key c l ↔ a = c ∨ a ∈ l := by
  induction l with
  | nil => simp [insDescBy]
  | cons d ds ih =>
    rw [insDescBy]
    split
    · simp
    · simp only [List.mem_cons, ih]
      tauto

theorem insDescBy_length (key : Candidate → ℚ) (c : Candidate) (l : List Candidate) :
    (insDescBy key c l).length = l.length + 1 := by
  induction l with
  | nil => rfl
  | cons d ds ih =>
    rw [insDescBy]
    split
    · simp
    · simp [ih]

theorem sortDescBy_length (key : Candidate → ℚ) (l : List Candidate) :
    (sortDescBy key l).length = l.length := by
  induction l with
  | nil => rfl
  | cons c cs ih => rw [sortDescBy, insDescBy_length, ih]; rfl

theorem mem_sortDescBy {key : Candidate → ℚ} {a : Candidate} {l : List Candidate} :
    a ∈ sortDescBy key l ↔ a ∈ l := by
  induction l with
  | nil => simp [sortDescBy]
  | cons c cs ih =>
    rw [sortDescBy, mem_insDescBy]
    simp [ih]

theorem insDescBy_pairwise {key : Candidate → ℚ} {c : Candidate} {l : List Candidate}
    (h : l.Pairwise (fun a b => key b ≤ key a)) :
    (insDescBy key c l).Pairwise (fun a b => key b ≤ key a) := by
  induction l with
  | nil => simp [insDescBy]
  | cons d ds ih =>
    rw [insDescBy]
    rcases List.pairwise_cons.mp h with ⟨hd, hds⟩
    split
    · next hle =>
      refine List.Pairwise.cons ?_ h
      intro x hx
      rcases List.mem_cons.mp hx with rfl | hx
      · exact hle
      · exact le_trans (hd x hx) hle
    · next hgt =>
      push_neg at hgt
      refine List.Pairwise.cons ?_ (ih hds)
      intro x hx
      rcases mem_insDescBy.mp hx with rfl | hx
      · exact le_of_lt hgt
      · exact hd x hx

theorem sortDescBy_pairwise (key : Candidate → ℚ) (l : List Candidate) :
    (sortDescBy key l).Pairwise (fun a b => key b ≤ key a) := by
  induction l with
  | nil => exact List.Pairwise.nil
  | cons c cs ih => exact insDescBy_pairwise ih

theorem filter_insDescBy (key : Candidate → ℚ) (v : ℚ) (c : Candidate) (l : List Candidate) :
    (insDescBy key c l).filter (fun x => decide (key x = v))
      = (c :: l).filter (fun x => decide (key x = v)) := by
  induction l with
  | nil => rfl
  | cons d ds ih =>
    rw [insDescBy]
    split
    · rfl
    · next hgt =>
      push_neg at hgt
      simp only [List.filter_cons, ih]
      by_cases hd : key d = v
      · have hc : ¬ key c = v := fun hc => absurd (hc.trans hd.symm) (ne_of_lt hgt)
        simp [hd, hc]
      · simp [hd]

theorem sortDescBy_filter (key : Candidate → ℚ) (v : ℚ) (l : List Candidate) :
    (sortDescBy key l).filter (fun x => decide (key x = v))
      = l.filter (fun x => decide (key x = v)) := by
  induction l with
  | nil => rfl
  | cons c cs ih =>
    rw [sortDescBy, filter_insDescBy]
    simp only [List.filter_cons, ih]

/-! ## Preservation of the scored core through the pipeline tail -/

theorem core_step5 (name institution : String) (c1 : Candidate) :
    core (step5 name institution c1) = core c1 := by
  unfold step5
  (repeat' split) <;> rfl

theorem core_enrichBase (db : String → Option StoredAuthor)
    (fetch_openalex : String → OpenAlexContact) (fetch_orcid : String → OrcidContact)
    (c : Candidate) :
    core (enrichBase db fetch_openalex fetch_orcid c) = core c := by
  have h1 : core (enrichBase db fetch_openalex fetch_orcid c) = core (step1Of db c) := rfl
  have h2 : core (step1Of db c) = core c := by
    unfold step1Of
    cases db c.author_id <;> rfl
  rw [h1, h2]

theorem core_enrich_contact (db : String → Option StoredAuthor)
    (fetch_openalex : String → OpenAlexContact) (fetch_orcid : String → OrcidContact)
    (c : Candidate) :
    core (enrich_contact db fetch_openalex fetch_orcid c) = core c := by
  unfold enrich_contact
  rw [core_step5, core_enrichBase]

theorem coreList_enrich (db : String → Option StoredAuthor)
    (fetch_openalex : String → OpenAlexContact) (fetch_orcid : String → OrcidContact)
    (l : List Candidate) :
    (enrich_candidates db fetch_openalex fetch_orcid l).map core = l.map core := by
  unfold enrich_candidates
  rw [List.map_map]
  exact List.map_congr_left fun c _ => core_enrich_contact db fetch_openalex fetch_orcid c

theorem coreList_check_all (l : List Candidate) (ns is : List String)
    (ids : Option (List String)) :
    (check_all_candidates l ns is ids).map core = l.map core := by
  unfold check_all_candidates
  rw [List.map_map]
  exact List.map_congr_left fun c _ => rfl

theorem coreList_addRanks (l : List Candidate) :
    (addRanks l).map core = l.map core := by
  unfold addRanks
  rw [List.map_map]
  have h : (core ∘ fun p : ℕ × Candidate => { p.2 with rank := p.1 + 1 })
      = core ∘ Prod.snd := rfl
  rw [h, ← List.map_map, List.enum_map_snd]

theorem pySliceTake_map (f : Candidate → Candidate) (n : ℤ) (l : List Candidate) :
    (pySliceTake n l).map f = pySliceTake n (l.map f) := by
  unfold pySliceTake
  split <;> simp [List.map_take]

theorem pySliceTake_sublist (n : ℤ) (l : List Candidate) :
    (pySliceTake n l).Sublist l := by
  unfold pySliceTake
  split <;> exact List.take_sublist _ _

theorem pySliceTake_prefix (n : ℤ) (l : List Candidate) :
    ∃ t, pySliceTake n l ++ t = l := by
  unfold pySliceTake
  split <;> exact ⟨_, List.take_append_drop _ _⟩

/-! ## Step-5 tagging lemmas for the contact resolver -/

theorem step5_keep {name institution : String} {c1 : Candidate}
    (h : emailMissing c1.contact = false) : step5 name institution c1 = c1 := by
  unfold step5
  rw [if_neg]
  rw [h]
  exact Bool.false_ne_true

theorem step5_fab_tag {name institution : String} {c1 : Candidate}
    (hmiss : emailMissing c1.contact = true)
    (hfab : _infer_email name institution ≠ none ∨ _fallback_email name institution ≠ none) :
    (step5 name institution c1).contact.email_is_inferred = some (inferredTag name) := by
  unfold step5
  rw [if_pos hmiss]
  rcases h1 : _infer_email name institution with _ | e
  · rcases h2 : _fallback_email name institution with _ | f
    · rcases hfab with hf | hf
      · exact absurd h1 hf
      · exact absurd h2 hf
    · rfl
  · rfl

theorem enrichBase_flag (db : String → Option StoredAuthor)
    (fetch_openalex : String → OpenAlexContact) (fetch_orcid : String → OrcidContact)
    (c : Candidate) :
    (enrichBase db fetch_openalex fetch_orcid c).contact.email_is_inferred
      = (step1Of db c).contact.email_is_inferred := by
  unfold enrichBase enrichBaseT
  dsimp only
  (repeat' split) <;> rfl

theorem step1Of_flag_none (db : String → Option StoredAuthor) (c : Candidate)
    (hflag : c.contact.email_is_inferred = none)
    (hdb : ∀ s, db c.author_id = some s → s.contact.email_is_inferred ≠ some true) :
    (step1Of db c).contact.email_is_inferred = none := by
  unfold step1Of
  cases hdb2 : db c.author_id with
  | none => exact hflag
  | some s =>
    have hs := hdb s hdb2
    show updIfBool s.contact.email_is_inferred c.contact.email_is_inferred = none
    cases hsf : s.contact.email_is_inferred with
    | none => exact hflag
    | some b =>
      cases b with
      | false => exact hflag
      | true => exact absurd hsf hs

/-! ## Claim theorems -/

/-- C2 (confirmed): whenever `enrich_contact` fabricates an email in
steps 4-5 (the email is still missing or empty after the authoritative
lookups, and pattern inference or the last-resort fallback produces
one), the `email_is_inferred` tag is set exactly to
`name_hash % 5 < 2` — true for the deterministic subset of names whose
hash modulo 5 falls below the threshold 2 (2 of 5 residues, the
"~40%"), and false otherwise. -/
theorem fabricated_email_tagged (db : String → Option StoredAuthor)
    (fetch_openalex : String → OpenAlexContact) (fetch_orcid : String → OrcidContact)
    (c : Candidate)
    (hmiss : emailMissing (enrichBase db fetch_openalex fetch_orcid c).contact = true)
    (hfab : _infer_email c.name c.institution ≠ none
          ∨ _fallback_email c.name c.institution ≠ none) :
    (enrich_contact db fetch_openalex fetch_orcid c).contact.email_is_inferred
      = some (decide (nameHash c.name % 5 < 2)) := by
  unfold enrich_contact
  rw [step5_fab_tag hmiss hfab]
  rfl

/-- Witness for `fabricated_email_tagged`: the candidate "Jane Doe" at
Stanford, absent from every authoritative source, gets a fabricated
email and the tag `694 % 5 < 2 = false`. -/
theorem fabricated_email_tagged_witness :
    (enrich_contact (fun _ => none) (fun _ => ({} : OpenAlexContact))
        (fun _ => ({} : OrcidContact))
        { name := "Jane Doe", institution := "Stanford University" }).contact.email_is_inferred
      = some (decide (nameHash "Jane Doe" % 5 < 2)) :=
  fabricated_email_tagged (fun _ => none) (fun _ => ({} : OpenAlexContact))
    (fun _ => ({} : OrcidContact))
    { name := "Jane Doe", institution := "Stanford University" }
    (by decide) (Or.inl (by decide))

/-- C1 counterexample: the candidate "Jane Doe" at Stanford is in no
authoritative source (empty oracles), so her email is fabricated by
pattern inference — yet `email_is_inferred` is `false`, because
`nameHash "Jane Doe" = 694` and `694 % 5 = 4 ≥ 2`.  An email that was
not obtained from an authoritative source is thus *not* always marked
inferred, refuting the claim as stated. -/
theorem unflagged_fabricated_email :
    (enrich_contact (fun _ => none) (fun _ => ({} : OpenAlexContact))
        (fun _ => ({} : OrcidContact))
        { name := "Jane Doe", institution := "Stanford University" }).contact.email
      = some "jane.doe@stanford.edu"
    ∧ (enrich_contact (fun _ => none) (fun _ => ({} : OpenAlexContact))
        (fun _ => ({} : OrcidContact))
        { name := "Jane Doe", institution := "Stanford University" }).contact.email_is_inferred
      = some false := by
  constructor <;> decide

/-- C1 (amended): provided the candidate arrives untagged and no stored
contact dict carries a truthy `email_is_inferred` (true of the store:
`authors.json` contacts only ever hold `orcid`, `orcid_url`,
`institution`), an email present after the authoritative steps 1-3 is
never marked inferred (the tag stays unset); an email fabricated by
steps 4-5 is marked inferred exactly when `name_hash % 5 < 2` — so only
on that deterministic subset, not always. -/
theorem email_inference_tagging (db : String → Option StoredAuthor)
    (fetch_openalex : String → OpenAlexContact) (fetch_orcid : String → OrcidContact)
    (c : Candidate)
    (hflag : c.contact.email_is_inferred = none)
    (hdb : ∀ s, db c.author_id = some s → s.contact.email_is_inferred ≠ some true) :
    (emailMissing (enrichBase db fetch_openalex fetch_orcid c).contact = false →
      (enrich_contact db fetch_openalex fetch_orcid c).contact.email_is_inferred = none)
    ∧ (emailMissing (enrichBase db fetch_openalex fetch_orcid c).contact = true →
        (_infer_email c.name c.institution ≠ none
          ∨ _fallback_email c.name c.institution ≠ none) →
      (enrich_contact db fetch_openalex fetch_orcid c).contact.email_is_inferred
        = some (decide (nameHash c.name % 5 < 2))) := by
  constructor
  · intro hpresent
    unfold enrich_contact
    rw [step5_keep hpresent, enrichBase_flag, step1Of_flag_none db c hflag hdb]
  · intro hmiss hfab
    unfold enrich_contact
    rw [step5_fab_tag hmiss hfab]
    rfl

/-- Witness for `email_inference_tagging`: the "Jane Doe" instance
(both hypotheses hold; the fabrication branch applies, and the tag is
false because the hash residue is 4). -/
theorem email_inference_tagging_witness :
    (enrich_contact (fun _ => none) (fun _ => ({} : OpenAlexContact))
        (fun _ => ({} : OrcidContact))
        { name := "Jane Doe", institution := "Stanford University" }).contact.email_is_inferred
      = some (decide (nameHash "Jane Doe" % 5 < 2)) :=
  (email_inference_tagging (fun _ => none) (fun _ => ({} : OpenAlexContact))
      (fun _ => ({} : OrcidContact))
      { name := "Jane Doe", institution := "Stanford University" }
      (by decide) (fun s hs => Option.noConfusion hs)).2 (by decide) (Or.inl (by decide))

/-- C8 (confirmed): for a candidate whose (lower-cased, stripped) name
is non-empty and any excluded author name, an exact case-insensitive
match yields a `same_person`/`critical` flag in the output of
`detect_conflicts`; otherwise, equality of the last whitespace tokens,
with that surname token longer than 2 characters, yields a
`possible_relation`/`low` flag. -/
theorem detect_conflicts_name_flags (candidate : Candidate)
    (paper_author_names paper_author_institutions : List String)
    (paper_author_ids : Option (List String))
    (author_name : String)
    (hmem : author_name ∈ paper_author_names)
    (hname : pyTrim (pyLower candidate.name) ≠ "") :
    (pyTrim (pyLower author_name) = pyTrim (pyLower candidate.name) →
      ({ type := "same_person"
         detail := "Candidate name matches paper author: " ++ author_name
         severity := "critical" } : COIFlag)
        ∈ detect_conflicts candidate paper_author_names paper_author_institutions
            paper_author_ids)
    ∧ (pyTrim (pyLower author_name) ≠ pyTrim (pyLower candidate.name) →
        (pySplit (pyTrim (pyLower author_name))).getLastD ""
          = (pySplit (pyTrim (pyLower candidate.name))).getLastD "" →
        2 < ((pySplit (pyTrim (pyLower candidate.name))).getLastD "").length →
      ({ type := "possible_relation"
         detail := "Shares last name with paper author: " ++ author_name
         severity := "low" } : COIFlag)
        ∈ detect_conflicts candidate paper_author_names paper_author_institutions
            paper_author_ids) := by
  constructor
  · intro heq
    unfold detect_conflicts
    refine List.mem_append_right _ ?_
    unfold nameFlagsOf
    refine List.mem_flatMap.mpr ⟨author_name, hmem, ?_⟩
    rw [if_pos ⟨heq ▸ hname, hname⟩, if_pos heq]
    exact List.mem_singleton_self _
  · intro hne hlast hlen
    have hal : pyTrim (pyLower author_name) ≠ "" := by
      intro h0
      rw [h0] at hlast
      have : (pySplit "").getLastD "" = "" := rfl
      rw [this] at hlast
      rw [← hlast] at hlen
      simp at hlen
    unfold detect_conflicts
    refine List.mem_append_right _ ?_
    unfold nameFlagsOf
    refine List.mem_flatMap.mpr ⟨author_name, hmem, ?_⟩
    rw [if_pos ⟨hal, hname⟩, if_neg hne, if_pos ⟨hlast, hlen⟩]
    exact List.mem_singleton_self _

/-- Witness for `detect_conflicts_name_flags`: the spec's own test
vector — candidate "Jane Doe", excluded list `["Jane Doe"]` — produces
the `same_person`/`critical` flag. -/
theorem detect_conflicts_name_flags_witness :
    ({ type := "same_person"
       detail := "Candidate name matches paper author: " ++ "Jane Doe"
       severity := "critical" } : COIFlag)
      ∈ detect_conflicts { name := "Jane Doe" } ["Jane Doe"] [] none :=
  (detect_conflicts_name_flags { name := "Jane Doe" } ["Jane Doe"] [] none "Jane Doe"
    (by decide) (by decide)).1 (by decide)

/-- C6 counterexample: on a query with empty title *and* empty
abstract, `find_reviewers` performs no validation: it proceeds to the
query-embedding call and the index availability probe (both in its
external-call trace) and returns an ordinary result — the function has
no rejection path at all. -/
theorem find_reviewers_no_validation :
    (find_reviewers false id false [] false (fun _ => none)
        (fun _ => ({} : OpenAlexContact)) (fun _ => ({} : OrcidContact))
        "" "" [] [] [] 15).calls
      = [ExtCall.embedQuery, ExtCall.qdrantProbe]
    ∧ (find_reviewers false id false [] false (fun _ => none)
        (fun _ => ({} : OpenAlexContact)) (fun _ => ({} : OrcidContact))
        "" "" [] [] [] 15).no_candidates = true := by
  constructor <;> rfl

/-- C6 (amended): the empty-title / empty-abstract validation is
performed by the UI submit handler of `app.py`, before `find_reviewers`
is invoked: the handler reports a validation failure and makes no
external call (its trace is empty). -/
theorem app_rejects_empty_query (llm_live : Bool)
    (live_rerank : List Candidate → List Candidate) (qdrant_up : Bool)
    (retrieved : List Candidate) (rerank_fails : Bool)
    (db : String → Option StoredAuthor) (fetch_openalex : String → OpenAlexContact)
    (fetch_orcid : String → OrcidContact) (title abstract : String)
    (keywords author_names author_institutions : List String) (num_reviewers : ℤ)
    (h : title = "" ∨ abstract = "") :
    appFindReviewers llm_live live_rerank qdrant_up retrieved rerank_fails db
        fetch_openalex fetch_orcid title abstract keywords author_names
        author_institutions num_reviewers
      = (SubmitOutcome.validationError "Please provide both a title and an abstract.", []) := by
  unfold appFindReviewers
  rw [if_pos h]

/-- Witness for `app_rejects_empty_query` at an empty title. -/
theorem app_rejects_empty_query_witness :
    appFindReviewers false id false [] false (fun _ => none)
        (fun _ => ({} : OpenAlexContact)) (fun _ => ({} : OrcidContact))
        "" "some abstract" [] [] [] 15
      = (SubmitOutcome.validationError "Please provide both a title and an abstract.", []) :=
  app_rejects_empty_query false id false [] false (fun _ => none)
    (fun _ => ({} : OpenAlexContact)) (fun _ => ({} : OrcidContact))
    "" "some abstract" [] [] [] 15 (Or.inl rfl)

/-- Without paper-author ids, `detect_conflicts` can only produce the
three non-co-authorship flag types. -/
theorem detect_conflicts_none_types (c : Candidate) (ns is : List String) :
    ∀ f ∈ detect_conflicts c ns is none,
      f.type = "same_institution" ∨ f.type = "same_person" ∨ f.type = "possible_relation" := by
  intro f hf
  unfold detect_conflicts coFlagsOf at hf
  rw [List.nil_append] at hf
  rcases List.mem_append.mp hf with hf | hf
  · left
    unfold instFlagsOf at hf
    rcases List.mem_filterMap.mp hf with ⟨a, _, hg⟩
    dsimp only at hg
    split at hg
    · injection hg with h
      exact h ▸ rfl
    · exact Option.noConfusion hg
  · unfold nameFlagsOf at hf
    rcases List.mem_flatMap.mp hf with ⟨a, _, hg⟩
    dsimp only at hg
    split at hg
    · split at hg
      · right; left
        rw [List.mem_singleton.mp hg]
      · split at hg
        · right; right
          rw [List.mem_singleton.mp hg]
        · exact absurd hg (List.not_mem_nil f)
    · exact absurd hg (List.not_mem_nil f)

/-- C9 (confirmed): `find_reviewers` invokes the COI stage without
paper-author ids (`check_all_candidates` is called with its
`paper_author_ids` defaulting to `None`), and the co-authorship check
only fires when ids are supplied — so no reviewer it returns ever
carries a `co_author` flag. -/
theorem reviewers_never_coauthor_flagged (llm_live : Bool)
    (live_rerank : List Candidate → List Candidate) (qdrant_up : Bool)
    (retrieved : List Candidate) (rerank_fails : Bool)
    (db : String → Option StoredAuthor) (fetch_openalex : String → OpenAlexContact)
    (fetch_orcid : String → OrcidContact) (title abstract : String)
    (keywords author_names author_institutions : List String) (num_reviewers : ℤ)
    (r : Candidate)
    (hr : r ∈ (find_reviewers llm_live live_rerank qdrant_up retrieved rerank_fails db
        fetch_openalex fetch_orcid title abstract keywords author_names
        author_institutions num_reviewers).reviewers)
    (f : COIFlag) (hf : f ∈ r.coi_flags) :
    f.type ≠ "co_author" := by
  unfold find_reviewers at hr
  by_cases hret : retrieved.isEmpty
  · rw [if_pos hret] at hr
    exact absurd hr (List.not_mem_nil r)
  · rw [if_neg hret] at hr
    dsimp only at hr
    unfold addRanks at hr
    rcases List.mem_map.mp hr with ⟨p, hp, hpr⟩
    have hflags : f ∈ p.2.coi_flags := by
      rw [← hpr] at hf
      exact hf
    have hp2 : p.2 ∈ pySliceTake num_reviewers (check_all_candidates
        (enrich_candidatesT db fetch_openalex fetch_orcid
          (scoredFor llm_live live_rerank rerank_fails title abstract keywords retrieved)).1
        author_names author_institutions none) := by
      have hmap := List.mem_map_of_mem Prod.snd hp
      rw [List.enum_map_snd] at hmap
      exact hmap
    have hp3 := (pySliceTake_sublist num_reviewers _).subset hp2
    unfold check_all_candidates at hp3
    rcases List.mem_map.mp hp3 with ⟨c, _, hcp⟩
    rw [← hcp] at hflags
    have htypes := detect_conflicts_none_types c author_names author_institutions f hflags
    rcases htypes with h | h | h <;> (rw [h]; decide)

/-- Witness for `reviewers_never_coauthor_flagged`: a one-candidate run
in which the candidate is the excluded author, producing a
`same_person` flag whose type the theorem shows differs from
`co_author`. -/
theorem reviewers_never_coauthor_flagged_witness :
    (((find_reviewers false id false [{ name := "Jane Doe", works_count := 5 }] true
        (fun _ => none) (fun _ => ({} : OpenAlexContact)) (fun _ => ({} : OrcidContact))
        "t" "a" [] ["Jane Doe"] [] 15).reviewers.getD 0 default).coi_flags.getD 0
          default).type
      ≠ "co_author" :=
  reviewers_never_coauthor_flagged false id false [{ name := "Jane Doe", works_count := 5 }]
    true (fun _ => none) (fun _ => ({} : OpenAlexContact)) (fun _ => ({} : OrcidContact))
    "t" "a" [] ["Jane Doe"] [] 15
    ((find_reviewers false id false [{ name := "Jane Doe", works_count := 5 }] true
        (fun _ => none) (fun _ => ({} : OpenAlexContact)) (fun _ => ({} : OrcidContact))
        "t" "a" [] ["Jane Doe"] [] 15).reviewers.getD 0 default)
    (by decide)
    (((find_reviewers false id false [{ name := "Jane Doe", works_count := 5 }] true
        (fun _ => none) (fun _ => ({} : OpenAlexContact)) (fun _ => ({} : OrcidContact))
        "t" "a" [] ["Jane Doe"] [] 15).reviewers.getD 0 default).coi_flags.getD 0 default)
    (by decide)

/-- `_mock_rerank` preserves the number of candidates. -/
theorem mock_rerank_length (title abstract : String) (keywords : List String)
    (l : List Candidate) :
    (_mock_rerank title abstract keywords l).length = l.length := by
  unfold _mock_rerank sortByOverallDesc
  rw [sortDescBy_length, List.length_map]

/-- In mock mode the scoring stage returns exactly the capped pool:
`min(len(retrieved), 30)` candidates. -/
theorem scoredFor_length (live_rerank : List Candidate → List Candidate)
    (rerank_fails : Bool) (title abstract : String) (keywords : List String)
    (retrieved : List Candidate) :
    (scoredFor false live_rerank rerank_fails title abstract keywords retrieved).length
      = min retrieved.length 30 := by
  unfold scoredFor
  split
  · rw [List.length_map, List.length_take]
    omega
  · dsimp only
    rw [if_neg Bool.false_ne_true, mock_rerank_length, List.length_take]
    omega

theorem pySliceTake_length_le (n : ℤ) (l : List Candidate) (hn : 0 ≤ n) :
    ((pySliceTake n l).length : ℤ) ≤ n ∧ (pySliceTake n l).length ≤ l.length := by
  unfold pySliceTake
  rw [if_pos hn]
  constructor
  · rw [List.length_take]
    have h1 : min n.toNat l.length ≤ n.toNat := Nat.min_le_left _ _
    have h2 : (n.toNat : ℤ) = n := Int.toNat_of_nonneg hn
    omega
  · rw [List.length_take]
    exact Nat.min_le_right _ _

theorem addRanks_length (l : List Candidate) : (addRanks l).length = l.length := by
  unfold addRanks
  rw [List.length_map, List.enum_length]

/-- C10 (confirmed for the heuristic and fallback scoring strategies,
i.e. mock mode, and a nonnegative `num_reviewers`): the reviewer list of
`find_reviewers` has at most `min(num_reviewers, 30, len(retrieved))`
entries — the 30-candidate cap is applied before scoring, so not more
than 30 reviewers are returned even when both `num_reviewers` and the
retrieved pool exceed 30. -/
theorem reviewer_count_bound (live_rerank : List Candidate → List Candidate)
    (qdrant_up : Bool) (retrieved : List Candidate) (rerank_fails : Bool)
    (db : String → Option StoredAuthor) (fetch_openalex : String → OpenAlexContact)
    (fetch_orcid : String → OrcidContact) (title abstract : String)
    (keywords author_names author_institutions : List String) (num_reviewers : ℤ)
    (hn : 0 ≤ num_reviewers) :
    (((find_reviewers false live_rerank qdrant_up retrieved rerank_fails db
        fetch_openalex fetch_orcid title abstract keywords author_names
        author_institutions num_reviewers).reviewers.length : ℤ) ≤ num_reviewers)
    ∧ (find_reviewers false live_rerank qdrant_up retrieved rerank_fails db
        fetch_openalex fetch_orcid title abstract keywords author_names
        author_institutions num_reviewers).reviewers.length ≤ 30
    ∧ (find_reviewers false live_rerank qdrant_up retrieved rerank_fails db
        fetch_openalex fetch_orcid title abstract keywords author_names
        author_institutions num_reviewers).reviewers.length ≤ retrieved.length := by
  unfold find_reviewers
  by_cases hret : retrieved.isEmpty
  · rw [if_pos hret]
    refine ⟨by exact_mod_cast hn, by simp, by simp⟩
  · rw [if_neg hret]
    dsimp only
    rw [addRanks_length]
    have hchecked : (check_all_candidates
        (enrich_candidatesT db fetch_openalex fetch_orcid
          (scoredFor false live_rerank rerank_fails title abstract keywords retrieved)).1
        author_names author_institutions none).length
        = min retrieved.length 30 := by
      unfold check_all_candidates enrich_candidatesT
      rw [List.length_map, List.length_map, scoredFor_length]
    have hslice := pySliceTake_length_le num_reviewers (check_all_candidates
        (enrich_candidatesT db fetch_openalex fetch_orcid
          (scoredFor false live_rerank rerank_fails title abstract keywords retrieved)).1
        author_names author_institutions none) hn
    rw [hchecked] at hslice
    refine ⟨hslice.1, ?_, ?_⟩ <;> omega

/-- Witness for `reviewer_count_bound`: two retrieved candidates, ask
for one reviewer — all three bounds hold. -/
theorem reviewer_count_bound_witness :
    (((find_reviewers false id false
        [{ name := "A B", works_count := 5 }, { name := "C D", works_count := 6 }] true
        (fun _ => none) (fun _ => ({} : OpenAlexContact)) (fun _ => ({} : OrcidContact))
        "t" "a" [] [] [] 1).reviewers.length : ℤ) ≤ 1)
      ∧ (find_reviewers false id false
        [{ name := "A B", works_count := 5 }, { name := "C D", works_count := 6 }] true
        (fun _ => none) (fun _ => ({} : OpenAlexContact)) (fun _ => ({} : OrcidContact))
        "t" "a" [] [] [] 1).reviewers.length ≤ 30
      ∧ (find_reviewers false id false
        [{ name := "A B", works_count := 5 }, { name := "C D", works_count := 6 }] true
        (fun _ => none) (fun _ => ({} : OpenAlexContact)) (fun _ => ({} : OrcidContact))
        "t" "a" [] [] [] 1).reviewers.length ≤ 2 :=
  reviewer_count_bound id false
    [{ name := "A B", works_count := 5 }, { name := "C D", works_count := 6 }] true
    (fun _ => none) (fun _ => ({} : OpenAlexContact)) (fun _ => ({} : OrcidContact))
    "t" "a" [] [] [] 1 (by decide)

theorem length_take_int (l : List Candidate) (k : ℤ) (hk : 0 ≤ k) :
    ((l.take k.toNat).length : ℤ) ≤ k := by
  have := List.length_take_le k.toNat l
  omega

/-- The collection loop of `_search_inmemory` is filter-then-take when
the limit has not yet been reached. -/
theorem collectScan_eq_take_filter (limit min_works taken : ℤ) (l : List Candidate)
    (h : taken < limit) :
    collectScan limit min_works taken l
      = (l.filter (fun c => decide (min_works ≤ c.works_count))).take (limit - taken).toNat := by
  induction l generalizing taken with
  | nil => simp [collectScan]
  | cons m rest ih =>
    rw [collectScan]
    by_cases hw : m.works_count < min_works
    · rw [if_pos hw, List.filter_cons_of_neg, ih taken h]
      exact fun hcontra => absurd (of_decide_eq_true hcontra) (by omega)
    · rw [if_neg hw, List.filter_cons_of_pos]
      · by_cases hstop : limit ≤ taken + 1
        · rw [if_pos hstop]
          have h1 : (limit - taken).toNat = 1 := by omega
          rw [h1]
          rfl
        · rw [if_neg hstop]
          have h1 : (limit - taken).toNat = (limit - (taken + 1)).toNat + 1 := by omega
          rw [h1, List.take_succ_cons, ih (taken + 1) (by omega)]
      · exact decide_eq_true (by omega)

/-- `_search_inmemory` computes exactly the spec's reference retrieval
with an empty exclusion set. -/
theorem search_inmemory_eq_reference (eta : ℚ) (index : List IndexRow) (query : List ℚ)
    (limit min_works : ℤ) (hlim : 1 ≤ limit) :
    _search_inmemory eta index query limit min_works
      = referenceRetrieve eta index query limit min_works [] := by
  unfold _search_inmemory referenceRetrieve
  dsimp only
  rw [collectScan_eq_take_filter limit min_works 0 _ (by omega)]
  have hf : ∀ (l : List Candidate),
      l.filter (fun c => decide (min_works ≤ c.works_count))
        = l.filter (fun c => decide (min_works ≤ c.works_count)
            && !(([] : List String).contains c.author_id)) := by
    intro l
    apply List.filter_congr
    intro x _
    simp [List.contains]
  rw [hf]
  have h0 : (limit - 0).toNat = limit.toNat := by omega
  rw [h0]

/-- C7 (amended): the local in-memory retrieval backend returns at most
`limit` results (for a positive limit), ordered by descending
similarity, each passing the minimum-works filter — and it coincides
with the spec's reference computation *with an empty exclusion set*:
the code has no exclusion parameter and applies no exclusion filter. -/
theorem search_inmemory_spec (eta : ℚ) (index : List IndexRow) (query : List ℚ)
    (limit min_works : ℤ) (hlim : 1 ≤ limit) :
    ((_search_inmemory eta index query limit min_works).length : ℤ) ≤ limit
    ∧ (_search_inmemory eta index query limit min_works).Pairwise
        (fun a b => b.score ≤ a.score)
    ∧ (∀ r ∈ _search_inmemory eta index query limit min_works,
        min_works ≤ r.works_count)
    ∧ _search_inmemory eta index query limit min_works
        = referenceRetrieve eta index query limit min_works [] := by
  have heq := search_inmemory_eq_reference eta index query limit min_works hlim
  refine ⟨?_, ?_, ?_, heq⟩
  · rw [heq]
    unfold referenceRetrieve
    dsimp only
    exact length_take_int _ limit (by omega)
  · rw [heq]
    unfold referenceRetrieve
    dsimp only
    exact ((sortDescBy_pairwise _ _).filter _).sublist (List.take_sublist _ _)
  · rw [heq]
    unfold referenceRetrieve
    dsimp only
    intro r hr
    have hr2 := List.mem_of_mem_take hr
    have hr3 := (List.mem_filter.mp hr2).2
    simp only [Bool.and_eq_true, decide_eq_true_eq] at hr3
    exact hr3.1

/-- Witness for `search_inmemory_spec`: a one-row index. -/
theorem search_inmemory_spec_witness :
    ((_search_inmemory 1 [{ vec := [1], meta := { author_id := "A1", works_count := 5 } }]
        [1] 10 3).length : ℤ) ≤ 10
    ∧ (_search_inmemory 1 [{ vec := [1], meta := { author_id := "A1", works_count := 5 } }]
        [1] 10 3).Pairwise (fun a b => b.score ≤ a.score)
    ∧ (∀ r ∈ _search_inmemory 1 [{ vec := [1], meta := { author_id := "A1", works_count := 5 } }]
        [1] 10 3, (3 : ℤ) ≤ r.works_count)
    ∧ _search_inmemory 1 [{ vec := [1], meta := { author_id := "A1", works_count := 5 } }]
        [1] 10 3
        = referenceRetrieve 1 [{ vec := [1], meta := { author_id := "A1", works_count := 5 } }]
            [1] 10 3 [] :=
  search_inmemory_spec 1 [{ vec := [1], meta := { author_id := "A1", works_count := 5 } }]
    [1] 10 3 (by decide)

/-- C7 counterexample: `_search_inmemory` has no exclusion parameter,
so a record whose author id is in the exclusion set is returned anyway;
the reference computation with that exclusion set returns nothing, so
the two disagree. -/
theorem search_inmemory_excluded_returned :
    (_search_inmemory 1 [{ vec := [1], meta := { author_id := "A1", works_count := 5 } }]
        [1] 10 3).map (fun c => c.author_id) = ["A1"]
    ∧ referenceRetrieve 1 [{ vec := [1], meta := { author_id := "A1", works_count := 5 } }]
        [1] 10 3 ["A1"] = [] := by
  constructor <;> decide

/-! ## Score bounds for the heuristic scoring engine -/

theorem seniorityScore_mem (h : ℤ) : 0 ≤ seniorityScore h ∧ seniorityScore h ≤ 10 := by
  unfold seniorityScore
  (repeat' split) <;> constructor <;> norm_num [Rat.divInt_eq_div]

theorem recencyScore_mem (s : String) : 0 ≤ recencyScore s ∧ recencyScore s ≤ 10 := by
  unfold recencyScore
  dsimp only
  (repeat' split) <;> constructor <;> norm_num [Rat.divInt_eq_div]

theorem topicScoreOf_mem (ctx : QueryCtx) (c : Candidate) :
    0 ≤ topicScoreOf ctx c ∧ topicScoreOf ctx c ≤ 10 := by
  unfold topicScoreOf vecTopicFloorOf
  simp only [qMin_eq, qMax_eq, qMul_eq, qAdd_eq, qDiv_eq, qSub_eq]
  constructor
  · apply le_min
    · refine le_trans ?_ (le_max_right _ _)
      exact mul_nonneg (le_max_right _ _) (by norm_num)
    · norm_num
  · exact min_le_right _ _

theorem methodologyScoreOf_mem (c : Candidate) :
    0 ≤ methodologyScoreOf c ∧ methodologyScoreOf c ≤ 10 := by
  unfold methodologyScoreOf
  simp only [qMin_eq, qMax_eq, qMul_eq, qDiv_eq, qSub_eq]
  constructor
  · exact le_min (mul_nonneg (le_max_right _ _) (by norm_num)) (by norm_num)
  · exact min_le_right _ _

/-- The unrounded overall score is the fixed weighted blend of the
unrounded sub-scores. -/
theorem overallOf_eq (ctx : QueryCtx) (c : Candidate) :
    overallOf ctx c
      = 35 / 100 * topicScoreOf ctx c + 30 / 100 * methodologyScoreOf c
        + 15 / 100 * seniorityScore c.h_index
        + 20 / 100 * recencyScore c.last_publication_date := by
  unfold overallOf
  simp only [qAdd_eq, qMul_eq, Rat.divInt_eq_div]
  push_cast
  ring

theorem overallOf_mem (ctx : QueryCtx) (c : Candidate) :
    0 ≤ overallOf ctx c ∧ overallOf ctx c ≤ 10 := by
  rw [overallOf_eq]
  obtain ⟨t0, t10⟩ := topicScoreOf_mem ctx c
  obtain ⟨m0, m10⟩ := methodologyScoreOf_mem c
  obtain ⟨s0, s10⟩ := seniorityScore_mem c.h_index
  obtain ⟨r0, r10⟩ := recencyScore_mem c.last_publication_date
  constructor <;> nlinarith

/-- All five stored scores of a heuristically scored candidate lie in
`[0, 10]`. -/
theorem scoreCandidate_bounds (ctx : QueryCtx) (c : Candidate) :
    (0 ≤ (scoreCandidate ctx c).topic_score ∧ (scoreCandidate ctx c).topic_score ≤ 10)
    ∧ (0 ≤ (scoreCandidate ctx c).methodology_score
        ∧ (scoreCandidate ctx c).methodology_score ≤ 10)
    ∧ (0 ≤ (scoreCandidate ctx c).seniority_score
        ∧ (scoreCandidate ctx c).seniority_score ≤ 10)
    ∧ (0 ≤ (scoreCandidate ctx c).recency_score
        ∧ (scoreCandidate ctx c).recency_score ≤ 10)
    ∧ (0 ≤ (scoreCandidate ctx c).overall_score
        ∧ (scoreCandidate ctx c).overall_score ≤ 10) :=
  ⟨⟨round1_nonneg (topicScoreOf_mem ctx c).1, round1_le_ten (topicScoreOf_mem ctx c).2⟩,
   ⟨round1_nonneg (methodologyScoreOf_mem c).1, round1_le_ten (methodologyScoreOf_mem c).2⟩,
   ⟨round1_nonneg (seniorityScore_mem c.h_index).1,
    round1_le_ten (seniorityScore_mem c.h_index).2⟩,
   ⟨round1_nonneg (recencyScore_mem c.last_publication_date).1,
    round1_le_ten (recencyScore_mem c.last_publication_date).2⟩,
   ⟨round1_nonneg (overallOf_mem ctx c).1, round1_le_ten (overallOf_mem ctx c).2⟩⟩

/-- C4 (confirmed): under the heuristic strategy every scored
candidate's stored overall score is the stored weighted blend
`0.35·topic + 0.30·methodology + 0.15·seniority + 0.20·recency` within
a rounding tolerance of `1/10` (all five stored values are rounded to
one decimal, each within `1/20` of its exact value), and it lies in
`[0, 10]`. -/
theorem mock_rerank_weighted_overall (title abstract : String) (keywords : List String)
    (cands : List Candidate) (c' : Candidate)
    (hc : c' ∈ _mock_rerank title abstract keywords cands) :
    |c'.overall_score
        - (35 / 100 * c'.topic_score + 30 / 100 * c'.methodology_score
          + 15 / 100 * c'.seniority_score + 20 / 100 * c'.recency_score)| ≤ 1 / 10
    ∧ 0 ≤ c'.overall_score ∧ c'.overall_score ≤ 10 := by
  unfold _mock_rerank sortByOverallDesc at hc
  rcases List.mem_map.mp (mem_sortDescBy.mp hc) with ⟨c, _, rfl⟩
  set ctx := mkQueryCtx title abstract keywords with hctx
  refine ⟨?_, (scoreCandidate_bounds ctx c).2.2.2.2⟩
  show |round1 (overallOf ctx c)
      - (35 / 100 * round1 (topicScoreOf ctx c) + 30 / 100 * round1 (methodologyScoreOf c)
        + 15 / 100 * round1 (seniorityScore c.h_index)
        + 20 / 100 * round1 (recencyScore c.last_publication_date))| ≤ 1 / 10
  have hO := overallOf_eq ctx c
  have e0 := abs_le.mp (abs_round1_sub (overallOf ctx c))
  have e1 := abs_le.mp (abs_round1_sub (topicScoreOf ctx c))
  have e2 := abs_le.mp (abs_round1_sub (methodologyScoreOf c))
  have e3 := abs_le.mp (abs_round1_sub (seniorityScore c.h_index))
  have e4 := abs_le.mp (abs_round1_sub (recencyScore c.last_publication_date))
  rw [abs_le]
  constructor <;> nlinarith [e0.1, e0.2, e1.1, e1.2, e2.1, e2.2, e3.1, e3.2, e4.1, e4.2]

/-- Witness for `mock_rerank_weighted_overall` on a singleton pool. -/
theorem mock_rerank_weighted_overall_witness :
    |((_mock_rerank "t" "a" [] [{ name := "A B", works_count := 5, score := Rat.divInt 6 10 }]).getD 0 default).overall_score
        - (35 / 100 * ((_mock_rerank "t" "a" [] [{ name := "A B", works_count := 5, score := Rat.divInt 6 10 }]).getD 0 default).topic_score
          + 30 / 100 * ((_mock_rerank "t" "a" [] [{ name := "A B", works_count := 5, score := Rat.divInt 6 10 }]).getD 0 default).methodology_score
          + 15 / 100 * ((_mock_rerank "t" "a" [] [{ name := "A B", works_count := 5, score := Rat.divInt 6 10 }]).getD 0 default).seniority_score
          + 20 / 100 * ((_mock_rerank "t" "a" [] [{ name := "A B", works_count := 5, score := Rat.divInt 6 10 }]).getD 0 default).recency_score)| ≤ 1 / 10
    ∧ 0 ≤ ((_mock_rerank "t" "a" [] [{ name := "A B", works_count := 5, score := Rat.divInt 6 10 }]).getD 0 default).overall_score
    ∧ ((_mock_rerank "t" "a" [] [{ name := "A B", works_count := 5, score := Rat.divInt 6 10 }]).getD 0 default).overall_score ≤ 10 :=
  mock_rerank_weighted_overall "t" "a" [] [{ name := "A B", works_count := 5, score := Rat.divInt 6 10 }] _ (by decide)

/-! ## Transporting the scored core through `find_reviewers` -/

theorem enrich_candidatesT_fst (db : String → Option StoredAuthor)
    (fetch_openalex : String → OpenAlexContact) (fetch_orcid : String → OrcidContact)
    (l : List Candidate) :
    (enrich_candidatesT db fetch_openalex fetch_orcid l).1
      = enrich_candidates db fetch_openalex fetch_orcid l := rfl

theorem reviewers_map_core (live_rerank : List Candidate → List Candidate)
    (qdrant_up : Bool) (retrieved : List Candidate) (rerank_fails : Bool)
    (db : String → Option StoredAuthor) (fetch_openalex : String → OpenAlexContact)
    (fetch_orcid : String → OrcidContact) (title abstract : String)
    (keywords author_names author_institutions : List String) (num_reviewers : ℤ)
    (hne : retrieved.isEmpty = false) :
    (find_reviewers false live_rerank qdrant_up retrieved rerank_fails db
        fetch_openalex fetch_orcid title abstract keywords author_names
        author_institutions num_reviewers).reviewers.map core
      = pySliceTake num_reviewers
          ((scoredFor false live_rerank rerank_fails title abstract keywords
            retrieved).map core) := by
  unfold find_reviewers
  rw [if_neg (by rw [hne]; exact Bool.false_ne_true)]
  dsimp only
  rw [coreList_addRanks, pySliceTake_map, enrich_candidatesT_fst, coreList_check_all,
    coreList_enrich]

theorem mem_reviewers_core (live_rerank : List Candidate → List Candidate)
    (qdrant_up : Bool) (retrieved : List Candidate) (rerank_fails : Bool)
    (db : String → Option StoredAuthor) (fetch_openalex : String → OpenAlexContact)
    (fetch_orcid : String → OrcidContact) (title abstract : String)
    (keywords author_names author_institutions : List String) (num_reviewers : ℤ)
    (r : Candidate)
    (hr : r ∈ (find_reviewers false live_rerank qdrant_up retrieved rerank_fails db
        fetch_openalex fetch_orcid title abstract keywords author_names
        author_institutions num_reviewers).reviewers) :
    ∃ s ∈ scoredFor false live_rerank rerank_fails title abstract keywords retrieved,
      core r = core s := by
  by_cases hne : retrieved.isEmpty
  · unfold find_reviewers at hr
    rw [if_pos hne] at hr
    exact absurd hr (List.not_mem_nil r)
  · have hne2 : retrieved.isEmpty = false := by
      revert hne
      cases retrieved.isEmpty <;> simp
    have hmap := List.mem_map_of_mem core hr
    rw [reviewers_map_core live_rerank qdrant_up retrieved rerank_fails db
      fetch_openalex fetch_orcid title abstract keywords author_names
      author_institutions num_reviewers hne2] at hmap
    have hmem := (pySliceTake_sublist num_reviewers _).subset hmap
    rcases List.mem_map.mp hmem with ⟨s, hs, hcs⟩
    exact ⟨s, hs, hcs.symm⟩

/-- C3 counterexample: with a retrieved candidate of (cosine)
similarity `-0.1` and a failing re-ranking stage, the fallback stores
`overall_score = topic_score = -1`, outside `[0, 10]`. -/
theorem fallback_negative_scores :
    ((find_reviewers false id false
        [{ author_id := "A1", name := "N B", works_count := 5, score := Rat.divInt (-1) 10 }]
        true (fun _ => none) (fun _ => ({} : OpenAlexContact)) (fun _ => ({} : OrcidContact))
        "t" "a" [] [] [] 15).reviewers.map (fun c => c.overall_score)) = [Rat.divInt (-1) 1]
    ∧ ((find_reviewers false id false
        [{ author_id := "A1", name := "N B", works_count := 5, score := Rat.divInt (-1) 10 }]
        true (fun _ => none) (fun _ => ({} : OpenAlexContact)) (fun _ => ({} : OrcidContact))
        "t" "a" [] [] [] 15).reviewers.map (fun c => c.topic_score)) = [Rat.divInt (-1) 1]
    ∧ Rat.divInt (-1) 1 < 0 := by
  refine ⟨by decide, by decide, by decide⟩

/-- C3 (amended): every reviewer returned by `find_reviewers` (in mock
mode, the strategy the claim's sources describe) has all four
sub-scores and the overall score in `[0, 10]` — unconditionally when
the heuristic re-ranking succeeds, and, when re-ranking raises and the
unclamped fallback is used, provided every retrieved candidate has
similarity in `[0, 1]` and a nonnegative h-index (the fallback scales
the raw similarity by 10 without clamping, so a negative similarity
escapes the range). -/
theorem reviewer_scores_in_range (live_rerank : List Candidate → List Candidate)
    (qdrant_up : Bool) (retrieved : List Candidate) (rerank_fails : Bool)
    (db : String → Option StoredAuthor) (fetch_openalex : String → OpenAlexContact)
    (fetch_orcid : String → OrcidContact) (title abstract : String)
    (keywords author_names author_institutions : List String) (num_reviewers : ℤ)
    (hfb : rerank_fails = true → ∀ c ∈ retrieved, 0 ≤ c.score ∧ c.score ≤ 1 ∧ 0 ≤ c.h_index)
    (r : Candidate)
    (hr : r ∈ (find_reviewers false live_rerank qdrant_up retrieved rerank_fails db
        fetch_openalex fetch_orcid title abstract keywords author_names
        author_institutions num_reviewers).reviewers) :
    (0 ≤ r.topic_score ∧ r.topic_score ≤ 10)
    ∧ (0 ≤ r.methodology_score ∧ r.methodology_score ≤ 10)
    ∧ (0 ≤ r.seniority_score ∧ r.seniority_score ≤ 10)
    ∧ (0 ≤ r.recency_score ∧ r.recency_score ≤ 10)
    ∧ (0 ≤ r.overall_score ∧ r.overall_score ≤ 10) := by
  rcases mem_reviewers_core live_rerank qdrant_up retrieved rerank_fails db
    fetch_openalex fetch_orcid title abstract keywords author_names
    author_institutions num_reviewers r hr with ⟨s, hs, hcore⟩
  have ht : r.topic_score = s.topic_score := by
    show (core r).topic_score = (core s).topic_score
    rw [hcore]
  have hm : r.methodology_score = s.methodology_score := by
    show (core r).methodology_score = (core s).methodology_score
    rw [hcore]
  have hsen : r.seniority_score = s.seniority_score := by
    show (core r).seniority_score = (core s).seniority_score
    rw [hcore]
  have hrec : r.recency_score = s.recency_score := by
    show (core r).recency_score = (core s).recency_score
    rw [hcore]
  have hov : r.overall_score = s.overall_score := by
    show (core r).overall_score = (core s).overall_score
    rw [hcore]
  rw [ht, hm, hsen, hrec, hov]
  unfold scoredFor at hs
  dsimp only at hs
  cases hrf : rerank_fails with
  | true =>
    rw [hrf, if_pos rfl] at hs
    rcases List.mem_map.mp hs with ⟨c, hc, rfl⟩
    obtain ⟨h0, h1, hh⟩ := hfb hrf c (List.mem_of_mem_take hc)
    unfold fallbackScore
    dsimp only
    rw [qMul_eq]
    have hsen5 : (0 : ℚ) ≤ qMin (qDiv (qOfInt c.h_index) (qOfNat 5)) 10
        ∧ qMin (qDiv (qOfInt c.h_index) (qOfNat 5)) 10 ≤ 10 := by
      rw [qMin_eq, qDiv_eq, qOfInt_eq, qOfNat_eq]
      constructor
      · refine le_min (div_nonneg ?_ (by norm_num)) (by norm_num)
        exact_mod_cast hh
      · exact min_le_right _ _
    refine ⟨⟨?_, ?_⟩, ⟨by norm_num, by norm_num⟩, hsen5, ⟨by norm_num, by norm_num⟩, ⟨?_, ?_⟩⟩
      <;> nlinarith
  | false =>
    rw [hrf, if_neg Bool.false_ne_true, if_neg Bool.false_ne_true] at hs
    unfold _mock_rerank sortByOverallDesc at hs
    rcases List.mem_map.mp (mem_sortDescBy.mp hs) with ⟨c, _, rfl⟩
    exact scoreCandidate_bounds _ c

/-- Witness for `reviewer_scores_in_range` on a one-candidate fallback
run with similarity `0.6`. -/
theorem reviewer_scores_in_range_witness :
    (0 ≤ ((find_reviewers false id false
        [{ name := "A B", works_count := 5, score := Rat.divInt 6 10 }] true
        (fun _ => none) (fun _ => ({} : OpenAlexContact)) (fun _ => ({} : OrcidContact))
        "t" "a" [] [] [] 15).reviewers.getD 0 default).topic_score
      ∧ ((find_reviewers false id false
        [{ name := "A B", works_count := 5, score := Rat.divInt 6 10 }] true
        (fun _ => none) (fun _ => ({} : OpenAlexContact)) (fun _ => ({} : OrcidContact))
        "t" "a" [] [] [] 15).reviewers.getD 0 default).topic_score ≤ 10)
    ∧ (0 ≤ ((find_reviewers false id false
        [{ name := "A B", works_count := 5, score := Rat.divInt 6 10 }] true
        (fun _ => none) (fun _ => ({} : OpenAlexContact)) (fun _ => ({} : OrcidContact))
        "t" "a" [] [] [] 15).reviewers.getD 0 default).methodology_score
      ∧ ((find_reviewers false id false
        [{ name := "A B", works_count := 5, score := Rat.divInt 6 10 }] true
        (fun _ => none) (fun _ => ({} : OpenAlexContact)) (fun _ => ({} : OrcidContact))
        "t" "a" [] [] [] 15).reviewers.getD 0 default).methodology_score ≤ 10)
    ∧ (0 ≤ ((find_reviewers false id false
        [{ name := "A B", works_count := 5, score := Rat.divInt 6 10 }] true
        (fun _ => none) (fun _ => ({} : OpenAlexContact)) (fun _ => ({} : OrcidContact))
        "t" "a" [] [] [] 15).reviewers.getD 0 default).seniority_score
      ∧ ((find_reviewers false id false
        [{ name := "A B", works_count := 5, score := Rat.divInt 6 10 }] true
        (fun _ => none) (fun _ => ({} : OpenAlexContact)) (fun _ => ({} : OrcidContact))
        "t" "a" [] [] [] 15).reviewers.getD 0 default).seniority_score ≤ 10)
    ∧ (0 ≤ ((find_reviewers false id false
        [{ name := "A B", works_count := 5, score := Rat.divInt 6 10 }] true
        (fun _ => none) (fun _ => ({} : OpenAlexContact)) (fun _ => ({} : OrcidContact))
        "t" "a" [] [] [] 15).reviewers.getD 0 default).recency_score
      ∧ ((find_reviewers false id false
        [{ name := "A B", works_count := 5, score := Rat.divInt 6 10 }] true
        (fun _ => none) (fun _ => ({} : OpenAlexContact)) (fun _ => ({} : OrcidContact))
        "t" "a" [] [] [] 15).reviewers.getD 0 default).recency_score ≤ 10)
    ∧ (0 ≤ ((find_reviewers false id false
        [{ name := "A B", works_count := 5, score := Rat.divInt 6 10 }] true
        (fun _ => none) (fun _ => ({} : OpenAlexContact)) (fun _ => ({} : OrcidContact))
        "t" "a" [] [] [] 15).reviewers.getD 0 default).overall_score
      ∧ ((find_reviewers false id false
        [{ name := "A B", works_count := 5, score := Rat.divInt 6 10 }] true
        (fun _ => none) (fun _ => ({} : OpenAlexContact)) (fun _ => ({} : OrcidContact))
        "t" "a" [] [] [] 15).reviewers.getD 0 default).overall_score ≤ 10) :=
  reviewer_scores_in_range id false
    [{ name := "A B", works_count := 5, score := Rat.divInt 6 10 }] true
    (fun _ => none) (fun _ => ({} : OpenAlexContact)) (fun _ => ({} : OrcidContact))
    "t" "a" [] [] [] 15 (fun _ => by decide) _ (by decide)

/-! ## Stability of the final ordering -/

theorem filter_core_map (l : List Candidate) (p : Candidate → Bool) :
    (l.map core).filter p = (l.filter (fun x => p (core x))).map core := by
  induction l with
  | nil => rfl
  | cons c cs ih =>
    simp only [List.map_cons, List.filter_cons]
    cases h : p (core c) <;> simp [h, ih]

theorem sortDescBy_overall_core_filter (v : ℚ) (l : List Candidate) :
    ((sortDescBy (fun c => c.overall_score) l).map core).filter
        (fun c => decide (c.overall_score = v))
      = (l.map core).filter (fun c => decide (c.overall_score = v)) := by
  rw [filter_core_map, filter_core_map]
  exact congrArg (List.map core) (sortDescBy_filter (fun c => c.overall_score) v l)

/-- C5: in mock mode the reviewer list of `find_reviewers` is sorted in
descending order of overall score, and candidates with equal overall
scores keep the relative order of the scored retrieval output: for any
fixed value `v`, the reviewers carrying overall score `v` form (up to
the pipeline-tail fields reset by `core`) a prefix of the scored
retrieval list restricted to that value.  The hypothesis that the
retrieval output is sorted by descending similarity (which the
retrieval backends guarantee) is needed for the error-fallback branch,
which keeps retrieval order instead of re-sorting. -/
theorem reviewer_order_stable (live_rerank : List Candidate → List Candidate)
    (qdrant_up : Bool) (retrieved : List Candidate) (rerank_fails : Bool)
    (db : String → Option StoredAuthor) (fetch_openalex : String → OpenAlexContact)
    (fetch_orcid : String → OrcidContact) (title abstract : String)
    (keywords author_names author_institutions : List String) (num_reviewers : ℤ)
    (hsorted : retrieved.Pairwise (fun a b => b.score ≤ a.score)) :
    (find_reviewers false live_rerank qdrant_up retrieved rerank_fails db
        fetch_openalex fetch_orcid title abstract keywords author_names
        author_institutions num_reviewers).reviewers.Pairwise
      (fun a b => b.overall_score ≤ a.overall_score)
    ∧ ∀ v : ℚ, ∃ t,
        (((find_reviewers false live_rerank qdrant_up retrieved rerank_fails db
            fetch_openalex fetch_orcid title abstract keywords author_names
            author_institutions num_reviewers).reviewers.map core).filter
          (fun c => decide (c.overall_score = v))) ++ t
        = (((retrieved.take (min retrieved.length 30)).map
            (fun c => if rerank_fails = true then fallbackScore c
              else scoreCandidate (mkQueryCtx title abstract keywords) c)).map core).filter
          (fun c => decide (c.overall_score = v)) := by
  by_cases hne : retrieved.isEmpty
  · have hnil : retrieved = [] := List.isEmpty_iff.mp hne
    subst hnil
    constructor
    · exact List.Pairwise.nil
    · exact fun v => ⟨[], rfl⟩
  · have hne2 : retrieved.isEmpty = false := by
      revert hne
      cases retrieved.isEmpty <;> simp
    have hmap := reviewers_map_core live_rerank qdrant_up retrieved rerank_fails db
      fetch_openalex fetch_orcid title abstract keywords author_names
      author_institutions num_reviewers hne2
    have hpair : (scoredFor false live_rerank rerank_fails title abstract keywords
        retrieved).Pairwise (fun a b => b.overall_score ≤ a.overall_score) := by
      unfold scoredFor
      dsimp only
      cases hrf : rerank_fails with
      | true =>
        rw [if_pos rfl]
        refine List.Pairwise.map fallbackScore ?_
          (List.Pairwise.sublist (List.take_sublist _ _) hsorted)
        intro a b h
        show qMul b.score 10 ≤ qMul a.score 10
        rw [qMul_eq, qMul_eq]
        nlinarith
      | false =>
        rw [if_neg Bool.false_ne_true, if_neg Bool.false_ne_true]
        unfold _mock_rerank sortByOverallDesc
        exact sortDescBy_pairwise _ _
    constructor
    · have h1 : ((find_reviewers false live_rerank qdrant_up retrieved rerank_fails db
          fetch_openalex fetch_orcid title abstract keywords author_names
          author_institutions num_reviewers).reviewers.map core).Pairwise
          (fun a b => b.overall_score ≤ a.overall_score) := by
        rw [hmap]
        refine List.Pairwise.sublist (pySliceTake_sublist _ _) ?_
        exact List.pairwise_map.mpr hpair
      exact List.pairwise_map.mp h1
    · intro v
      have hstep : ((scoredFor false live_rerank rerank_fails title abstract keywords
            retrieved).map core).filter (fun c => decide (c.overall_score = v))
          = (((retrieved.take (min retrieved.length 30)).map
              (fun c => if rerank_fails = true then fallbackScore c
                else scoreCandidate (mkQueryCtx title abstract keywords) c)).map core).filter
            (fun c => decide (c.overall_score = v)) := by
        unfold scoredFor
        dsimp only
        cases hrf : rerank_fails with
        | true =>
          rw [if_pos rfl]
          have hf : (fun c => if true = true then fallbackScore c
              else scoreCandidate (mkQueryCtx title abstract keywords) c)
              = fun c => fallbackScore c := funext fun c => if_pos rfl
          rw [hf]
        | false =>
          rw [if_neg Bool.false_ne_true, if_neg Bool.false_ne_true]
          have hf : (fun c => if false = true then fallbackScore c
              else scoreCandidate (mkQueryCtx title abstract keywords) c)
              = fun c => scoreCandidate (mkQueryCtx title abstract keywords) c :=
            funext fun c => if_neg Bool.false_ne_true
          rw [hf]
          unfold _mock_rerank sortByOverallDesc
          exact sortDescBy_overall_core_filter v _
      obtain ⟨t0, ht0⟩ := pySliceTake_prefix num_reviewers
        ((scoredFor false live_rerank rerank_fails title abstract keywords
          retrieved).map core)
      refine ⟨t0.filter (fun c => decide (c.overall_score = v)), ?_⟩
      rw [hmap, ← hstep, ← List.filter_append, ht0]

/-- Witness for `reviewer_order_stable` on a two-candidate retrieval
sorted by descending similarity. -/
theorem reviewer_order_stable_witness :
    ([{ author_id := "A1", name := "A B", works_count := 5, score := Rat.divInt 6 10 },
      { author_id := "A2", name := "C D", works_count := 5, score := Rat.divInt 3 10 }]
        : List Candidate).Pairwise (fun a b => b.score ≤ a.score)
    ∧ ((find_reviewers false id false
        [{ author_id := "A1", name := "A B", works_count := 5, score := Rat.divInt 6 10 },
         { author_id := "A2", name := "C D", works_count := 5, score := Rat.divInt 3 10 }]
        false (fun _ => none) (fun _ => ({} : OpenAlexContact)) (fun _ => ({} : OrcidContact))
        "t" "a" [] [] [] 15).reviewers.Pairwise
          (fun a b => b.overall_score ≤ a.overall_score)
      ∧ ∀ v : ℚ, ∃ t,
        (((find_reviewers false id false
            [{ author_id := "A1", name := "A B", works_count := 5, score := Rat.divInt 6 10 },
             { author_id := "A2", name := "C D", works_count := 5, score := Rat.divInt 3 10 }]
            false (fun _ => none) (fun _ => ({} : OpenAlexContact)) (fun _ => ({} : OrcidContact))
            "t" "a" [] [] [] 15).reviewers.map core).filter
          (fun c => decide (c.overall_score = v))) ++ t
        = List.filter (fun c => decide (c.overall_score = v))
            (List.map core
              (List.map
                (fun c => if false = true then fallbackScore c
                  else scoreCandidate (mkQueryCtx "t" "a" []) c)
                (List.take
                  (min (List.length
                    ([{ author_id := "A1", name := "A B", works_count := 5, score := Rat.divInt 6 10 },
                      { author_id := "A2", name := "C D", works_count := 5, score := Rat.divInt 3 10 }]
                        : List Candidate)) 30)
                  ([{ author_id := "A1", name := "A B", works_count := 5, score := Rat.divInt 6 10 },
                    { author_id := "A2", name := "C D", works_count := 5, score := Rat.divInt 3 10 }]
                      : List Candidate))))) :=
  ⟨by decide,
    reviewer_order_stable id false
      [{ author_id := "A1", name := "A B", works_count := 5, score := Rat.divInt 6 10 },
       { author_id := "A2", name := "C D", works_count := 5, score := Rat.divInt 3 10 }]
      false (fun _ => none) (fun _ => ({} : OpenAlexContact)) (fun _ => ({} : OrcidContact))
      "t" "a" [] [] [] 15 (by decide)⟩

end ReviewerFinder
